import Mathlib

/-!
Verification development for the fiction-expo-social-auth repository.

Shallow embedding of the core layer: constants, the canonical result types,
the error classifier (utils/errorHandler.ts), the callback URL codec
(utils/urlParser.ts), the platform capability detector (utils/platform.ts),
the popup/session transports (providers/facebook.ts, providers/google.ts,
providers/apple.ts) and the legacy entry point (index.ts).
-/

namespace SocialAuth

/-- Closed enumeration of error codes, from ERROR_CODES in constants.ts. -/
inductive ErrorCode where
  | requestCanceled
  | invalidToken
  | networkError
  | appleNotAvailable
  | unknownProvider
  | authFailed
deriving DecidableEq, Repr

/-- String value of each error code, from ERROR_CODES in constants.ts. -/
def errorCodeString : ErrorCode → String
  | .requestCanceled => "ERR_REQUEST_CANCELED"
  | .invalidToken => "ERR_INVALID_TOKEN"
  | .networkError => "ERR_NETWORK"
  | .appleNotAvailable => "ERR_APPLE_NOT_AVAILABLE"
  | .unknownProvider => "ERR_UNKNOWN_PROVIDER"
  | .authFailed => "ERR_AUTH_FAILED"

/-- Human-readable message for each error code, from ERROR_MESSAGES in
utils/errorHandler.ts. -/
def ERROR_MESSAGES : ErrorCode → String
  | .requestCanceled => "Sign-in was cancelled. Please try again."
  | .invalidToken => "Authentication failed. Please try again."
  | .networkError => "Network error. Please check your connection and try again."
  | .appleNotAvailable => "Apple Sign-In is not available on this device."
  | .unknownProvider => "Unknown authentication provider."
  | .authFailed => "Authentication failed. Please try again."

/-- Backend URL constant from constants.ts. -/
def AUTH_BACKEND_URL : String := "https://our-app-delta.vercel.app"

/-- AuthUser from providers/types.ts.  The optional phoneNumber field is never
set anywhere in the repository and is omitted. -/
structure AuthUser where
  id : String
  email : String
  name : String
  photo : String
deriving DecidableEq, Repr

/-- AuthFailedResult from providers/types.ts (the action tag is carried by the
AuthResult constructor).  The source declares error as optional but every
construction site in the repository supplies it, so it is a plain String here. -/
structure AuthFailedResult where
  error : String
  errorCode : Option ErrorCode
deriving DecidableEq, Repr

/-- AuthResult from providers/types.ts.  The source AuthSuccessResult carries
the user object plus flat copies of its four fields; the copies are always
built from the same values, so only the user object is modelled. -/
inductive AuthResult where
  | success (user : AuthUser)
  | failed (f : AuthFailedResult)
deriving DecidableEq, Repr

/-- SocialLoginOptions from providers/types.ts. -/
structure LoginOptions where
  backendUrl : Option String
  callbackUrl : Option String
deriving DecidableEq, Repr

/-! ## String helpers

Executable models of the JavaScript string primitives the source relies on:
`String.prototype.includes` (substring test) and truthiness of strings. -/

/-- Boolean test that pat occurs at the very start of l. -/
def startsList : List Char → List Char → Bool
  | [], _ => true
  | _ :: _, [] => false
  | p :: ps, c :: cs => p == c && startsList ps cs

/-- Boolean test that pat occurs somewhere inside l (JS includes). -/
def hasSeg (pat : List Char) : List Char → Bool
  | [] => startsList pat []
  | c :: cs => startsList pat (c :: cs) || hasSeg pat cs

/-- JS s.includes(pat). -/
def jsIncludes (s pat : String) : Bool := hasSeg pat.toList s.toList

/-- JS s.toLowerCase(), character by character (ASCII range, which covers
every pattern the classifier tests). -/
def jsToLower (s : String) : String := String.mk (s.toList.map Char.toLower)

/-- JS s.trim(): whitespace stripped from both ends. -/
def jsTrim (s : String) : String :=
  String.mk (((s.toList.dropWhile Char.isWhitespace).reverse.dropWhile
    Char.isWhitespace).reverse)

/-! ## Error classifier (utils/errorHandler.ts) -/

/-- The possible shapes of a raised JavaScript value as far as handleError can
distinguish them: an instance of SocialAuthError (carrying a code and the
constructor message argument), a standard Error (carrying a message), or any
non-Error-shaped value (a plain string, undefined, ...). -/
inductive RawError where
  | socialAuth (code : ErrorCode) (message : Option String)
  | jsError (message : String)
  | nonError
deriving DecidableEq, Repr

/-- Message stored by the SocialAuthError constructor:
message or ERROR_MESSAGES[code] or the (unreachable) fallback, where
the JS or-chain lets the empty string fall through to the code message. -/
def socialAuthMessage (code : ErrorCode) (message : Option String) : String :=
  match message with
  | some m => if m = "" then ERROR_MESSAGES code else m
  | none => ERROR_MESSAGES code

/-- handleError from utils/errorHandler.ts: converts any raised value to an
AuthFailedResult.  SocialAuthError instances pass their code through; standard
errors are classified by case-insensitive substring patterns in fixed order;
everything else becomes a generic AUTH_FAILED failure. -/
def handleError : RawError → AuthFailedResult
  | .socialAuth code message =>
    { error := socialAuthMessage code message, errorCode := some code }
  | .jsError m =>
    let lower := jsToLower m
    if jsIncludes lower "cancel" || jsIncludes lower "cancelled"
        || jsIncludes lower "dismissed" then
      { error := ERROR_MESSAGES .requestCanceled, errorCode := some .requestCanceled }
    else if jsIncludes lower "network" || jsIncludes lower "fetch"
        || jsIncludes lower "connection" then
      { error := ERROR_MESSAGES .networkError, errorCode := some .networkError }
    else if jsIncludes lower "token" || jsIncludes lower "invalid"
        || jsIncludes lower "expired" then
      { error := ERROR_MESSAGES .invalidToken, errorCode := some .invalidToken }
    else
      { error := m, errorCode := some .authFailed }
  | .nonError =>
    { error := "An unexpected error occurred", errorCode := some .authFailed }

/-! ## URI component codec

Executable models of the JavaScript host functions encodeURIComponent and
decodeURIComponent used by utils/urlParser.ts.  encodeURIComponent keeps the
unreserved characters A-Z a-z 0-9 - _ . ! ~ * apostrophe ( ) and
percent-encodes the UTF-8 bytes of every other character with uppercase hex.
decodeURIComponent inverts this and throws (here: returns none) on a percent
sign not followed by two hex digits or on an invalid UTF-8 byte sequence,
following the ECMA-262 Decode algorithm. -/

/-- Uppercase hexadecimal digit for a value below 16. -/
def hexDigitChar (n : Nat) : Char :=
  if n < 10 then Char.ofNat (48 + n) else Char.ofNat (55 + n)

/-- Value of a hexadecimal digit character, either case, else none. -/
def hexDigitVal (c : Char) : Option Nat :=
  if 48 ≤ c.toNat ∧ c.toNat ≤ 57 then some (c.toNat - 48)
  else if 65 ≤ c.toNat ∧ c.toNat ≤ 70 then some (c.toNat - 55)
  else if 97 ≤ c.toNat ∧ c.toNat ≤ 102 then some (c.toNat - 87)
  else none

/-- UTF-8 byte sequence of a unicode scalar value. -/
def utf8Bytes (n : Nat) : List Nat :=
  if n < 0x80 then [n]
  else if n < 0x800 then [0xC0 + n / 64, 0x80 + n % 64]
  else if n < 0x10000 then [0xE0 + n / 4096, 0x80 + n / 64 % 64, 0x80 + n % 64]
  else [0xF0 + n / 262144, 0x80 + n / 4096 % 64, 0x80 + n / 64 % 64, 0x80 + n % 64]

/-- Percent escape of one byte, uppercase hex. -/
def byteEsc (b : Nat) : List Char := ['%', hexDigitChar (b / 16), hexDigitChar (b % 16)]

/-- Characters encodeURIComponent leaves unescaped (39 is the apostrophe). -/
def isUnreservedURI (c : Char) : Bool :=
  c.isAlpha || c.isDigit ||
    c == '-' || c == '_' || c == '.' || c == '!' || c == '~' || c == '*' ||
    c.toNat == 39 || c == '(' || c == ')'

/-- Encoding of a single character. -/
def encChar (c : Char) : List Char :=
  if isUnreservedURI c then [c] else (utf8Bytes c.toNat).flatMap byteEsc

/-- Model of the JavaScript encodeURIComponent host function. -/
def encodeURIComponent (s : String) : String :=
  String.mk (s.toList.flatMap encChar)


/-- Token stream of a percent-encoded string: literal characters and decoded
escape bytes. -/
inductive UriTok where
  | raw (c : Char)
  | byte (b : Nat)
deriving DecidableEq, Repr

/-- Scan a string into tokens; none when a percent sign is not followed by two
hexadecimal digits. -/
def uriTokens : List Char → Option (List UriTok)
  | [] => some []
  | ['%'] => none
  | ['%', _] => none
  | '%' :: h1 :: h2 :: rest =>
    (hexDigitVal h1).bind (fun a => (hexDigitVal h2).bind (fun b =>
      (uriTokens rest).map (fun ts => UriTok.byte (16 * a + b) :: ts)))
  | c :: rest => (uriTokens rest).map (fun ts => UriTok.raw c :: ts)

/-- UTF-8 continuation byte test. -/
def isContByte (b : Nat) : Bool := 0x80 ≤ b && b < 0xC0

/-- Stream UTF-8 reassembly of the token list, one token at a time.  The
first argument counts the continuation bytes still expected, the second holds
the minimum value of the current multi-byte sequence (rejecting overlong
encodings), the third the value accumulated so far.  A leading byte fixes the
sequence length per the ECMA-262 Decode algorithm; a finished sequence is
accepted when it reaches its minimum, is no surrogate and does not exceed the
last scalar value; a literal character or the end of the input inside a
pending sequence is rejected, as Decode requires a percent escape there. -/
def assembleFrom : Nat → Nat → Nat → List UriTok → Option (List Char)
  | 0, _, _, [] => some []
  | _ + 1, _, _, [] => none
  | 0, _, _, .raw c :: ts => (assembleFrom 0 0 0 ts).map (fun l => c :: l)
  | _ + 1, _, _, .raw _ :: _ => none
  | 0, _, _, .byte b :: ts =>
    if b < 0x80 then (assembleFrom 0 0 0 ts).map (fun l => Char.ofNat b :: l)
    else if b < 0xC0 then none
    else if b < 0xE0 then assembleFrom 1 0x80 (b - 0xC0) ts
    else if b < 0xF0 then assembleFrom 2 0x800 (b - 0xE0) ts
    else if b < 0xF8 then assembleFrom 3 0x10000 (b - 0xF0) ts
    else none
  | k + 1, lo, acc, .byte b :: ts =>
    if isContByte b then
      if k = 0 then
        if lo ≤ acc * 64 + (b - 0x80)
            ∧ ¬(0xD800 ≤ acc * 64 + (b - 0x80) ∧ acc * 64 + (b - 0x80) ≤ 0xDFFF)
            ∧ acc * 64 + (b - 0x80) ≤ 0x10FFFF then
          (assembleFrom 0 0 0 ts).map (fun l => Char.ofNat (acc * 64 + (b - 0x80)) :: l)
        else none
      else assembleFrom k lo (acc * 64 + (b - 0x80)) ts
    else none

/-- Reassembly of a whole token stream. -/
def assembleUtf8 (ts : List UriTok) : Option (List Char) := assembleFrom 0 0 0 ts

/-- Model of the JavaScript decodeURIComponent host function; none models a
thrown URIError. -/
def decodeURIComponent (s : String) : Option String :=
  (uriTokens s.toList).bind (fun ts => (assembleUtf8 ts).map String.mk)

/-- Token form of the encoding of one character, relating the encoder to the
decoder in the roundtrip proofs. -/
def encCharToks (c : Char) : List UriTok :=
  if isUnreservedURI c then [.raw c] else (utf8Bytes c.toNat).map .byte

/-! ## Callback URL codec (utils/urlParser.ts) -/

/-- Characters admissible in a key of a query pair, from the character class
of the regex in parseCallbackUrl. -/
def isKeyChar (c : Char) : Bool := c != '?' && c != '&' && c != '='

/-- Scanner state while replaying the global regex of parseCallbackUrl over a
query string: seeking the start of a match, inside a (reversed) key run, or
inside a (reversed) value run for a completed key. -/
inductive ScanMode where
  | seek
  | key (acc : List Char)
  | val (key : List Char) (acc : List Char)
deriving DecidableEq, Repr

/-- Successive matches of the global regex in parseCallbackUrl over a query
string: a match is a maximal nonempty run of key characters followed by an
equals sign and then a maximal (possibly empty) run of non-ampersand
characters; search resumes after each match.  A key run followed by anything
other than an equals sign cannot match at any position inside the run either
(every suffix of the run ends at the same non-equals character), so the
regex search resumes after the run, which this one-character-at-a-time
scanner reproduces. -/
def scanPairs : ScanMode → List Char → List (List Char × List Char)
  | .seek, [] => []
  | .seek, c :: rest => if isKeyChar c then scanPairs (.key [c]) rest else scanPairs .seek rest
  | .key _, [] => []
  | .key acc, c :: rest =>
    if isKeyChar c then scanPairs (.key (c :: acc)) rest
    else if c = '=' then scanPairs (.val acc.reverse []) rest
    else scanPairs .seek rest
  | .val k acc, [] => [(k, acc.reverse)]
  | .val k acc, c :: rest =>
    if c = '&' then (k, acc.reverse) :: scanPairs .seek rest
    else scanPairs (.val k (c :: acc)) rest

/-- The match sequence of the regex over a query string. -/
def rawPairs (l : List Char) : List (List Char × List Char) := scanPairs .seek l

/-- The replace of plus signs by spaces applied to each raw value before
decoding. -/
def plusToSpace (l : List Char) : List Char := l.map (fun c => if c = '+' then ' ' else c)

/-- Decoding of one raw value: plus-to-space then decodeURIComponent; none
models the thrown URIError. -/
def decodeValue (v : List Char) : Option String :=
  decodeURIComponent (String.mk (plusToSpace v))

/-- JavaScript object assignment params[k] = v: update the existing key in
place, else append. -/
def setKV (m : List (String × String)) (k v : String) : List (String × String) :=
  if m.any (fun p => p.1 == k) then m.map (fun p => if p.1 == k then (k, v) else p)
  else m ++ [(k, v)]

/-- The while loop of parseCallbackUrl: assign each decoded pair in order; a
decode exception escapes to the catch around the whole loop, so the params
collected so far are returned and the remaining pairs are dropped. -/
def buildParams : List (List Char × List Char) → List (String × String) → List (String × String)
  | [], acc => acc
  | (k, v) :: rest, acc =>
    match decodeValue v with
    | some s => buildParams rest (setKV acc (String.mk k) s)
    | none => acc

/-- Everything after the first question mark up to the next one, modelling
url.split with separator question mark, component one. -/
def afterFirstQ : List Char → Option (List Char)
  | [] => none
  | c :: rest => if c = '?' then some (rest.takeWhile (fun x => x != '?')) else afterFirstQ rest

/-- The queryString computation of parseCallbackUrl: the split component when
the url contains a question mark, else the whole url.  (The early return on an
empty queryString is behaviorally the same as parsing the empty string.) -/
def extractQuery (url : List Char) : List Char :=
  match afterFirstQ url with
  | some q => q
  | none => url

/-- parseCallbackUrl from utils/urlParser.ts, as the final mapping. -/
def parseCallbackUrl (url : String) : List (String × String) :=
  buildParams (rawPairs (extractQuery url.toList)) []

/-- Lookup in the returned mapping. -/
def getParam (m : List (String × String)) (k : String) : Option String :=
  (m.find? (fun p => p.1 == k)).map (fun p => p.2)

/-- JavaScript truthiness of a string-or-undefined value. -/
def jsTruthy (o : Option String) : Bool := o.getD "" != ""

/-- JavaScript or-else on a string-or-undefined value: undefined and the empty
string both fall back to the default. -/
def jsOrElse (o : Option String) (d : String) : String :=
  match o with
  | some s => if s = "" then d else s
  | none => d

/-- paramsToAuthResult from utils/urlParser.ts. -/
def paramsToAuthResult (params : List (String × String)) : AuthResult :=
  if getParam params "action" == some "success"
      && jsTruthy (getParam params "id") && jsTruthy (getParam params "email") then
    .success
      { id := (getParam params "id").getD ""
        email := (getParam params "email").getD ""
        name := (getParam params "name").getD ""
        photo := (getParam params "photo").getD "" }
  else
    .failed { error := jsOrElse (getParam params "error") "Authentication failed"
              errorCode := none }

/-- buildAuthUrl from utils/urlParser.ts. -/
def buildAuthUrl (backendUrl provider callbackUrl : String) : String :=
  backendUrl ++ "?backto=" ++ encodeURIComponent callbackUrl ++ "&auth=" ++ provider

/-! ## Platform capability detector (utils/platform.ts) -/

/-- Ambient host environment observed by getPlatformInfo: whether
navigator.product reports ReactNative, whether the expo global is defined,
the react-native Platform.OS value (none when the require throws), the user
agent probes, and whether the expo-apple-authentication module is present and
reports availability. -/
structure Env where
  isReactNative : Bool
  expoDefined : Bool
  rnPlatformOS : Option String
  uaIOS : Bool
  uaAndroid : Bool
  appleAuthModuleAvailable : Bool
deriving DecidableEq, Repr

/-- PlatformInfo from providers/types.ts. -/
structure PlatformInfo where
  isIOS : Bool
  isAndroid : Bool
  isWeb : Bool
  isExpo : Bool
  supportsNativeAppleAuth : Bool
deriving DecidableEq, Repr

/-- getPlatformInfo from utils/platform.ts. -/
def getPlatformInfo (e : Env) : PlatformInfo :=
  let isExpo := e.expoDefined || e.isReactNative
  let probe : Bool × Bool × Bool :=
    if e.isReactNative then
      match e.rnPlatformOS with
      | some os => (os == "ios", os == "android", false)
      | none => (false, false, true)
    else (e.uaIOS, e.uaAndroid, true)
  { isIOS := probe.1
    isAndroid := probe.2.1
    isWeb := probe.2.2
    isExpo := isExpo
    supportsNativeAppleAuth := probe.1 && isExpo && !probe.2.2 }

/-- isNativeAppleAuthAvailable from utils/platform.ts: gated on
supportsNativeAppleAuth, then on the module probe (a throwing require or a
negative isAvailableAsync both yield false). -/
def isNativeAppleAuthAvailable (e : Env) : Bool :=
  (getPlatformInfo e).supportsNativeAppleAuth && e.appleAuthModuleAvailable

/-! ## Popup transport state machines

Each popup attempt owns a settlement cell (the promise), a polling interval, a
hard five-minute timeout, an optional message listener and the popup window
handle.  External occurrences (a poll tick observing the popup, the timeout
firing, a window message, the user closing the popup) drive the handlers
registered by the source. -/

/-- Resources and settlement cell of one popup attempt. -/
structure PopupState where
  settled : Option AuthResult
  pollActive : Bool
  timeoutActive : Bool
  listenerActive : Bool
  popupOpen : Bool
deriving DecidableEq, Repr

/-- External occurrences delivered to a popup attempt.  A pollTick carries the
popup address when it is same-origin-readable (none models the swallowed
cross-origin read exception); a message carries the event origin check result,
whether event.data has the oauth-callback shape, and event.data.params. -/
inductive PopupEvent where
  | pollTick (urlRead : Option String)
  | timeoutFire
  | message (sameOrigin : Bool) (oauthCallback : Bool) (params : List (String × String))
  | userClose
deriving DecidableEq, Repr

/-- Promise resolution: only the first resolve value is kept. -/
def resolveP (s : PopupState) (r : AuthResult) : PopupState :=
  { s with settled := some (s.settled.getD r) }

/-- Entry of facebookLoginWeb (providers/facebook.ts): a blocked popup (null
handle) resolves immediately before any interval, timeout or listener is
registered; otherwise the interval and the timeout are registered (no message
listener exists in this transport). -/
def facebookPopupInit (blocked : Bool) : PopupState :=
  if blocked then
    { settled := some (.failed { error := "Popup was blocked. Please allow popups for this site."
                                 errorCode := some .authFailed })
      pollActive := false, timeoutActive := false, listenerActive := false, popupOpen := false }
  else
    { settled := none, pollActive := true, timeoutActive := true
      listenerActive := false, popupOpen := true }

/-- Event handlers of facebookLoginWeb.  The poll callback first checks
popup.closed, then reads the popup address (a cross-origin read throws and is
swallowed) and on a success or failure marker clears the interval, parses,
closes the popup and resolves.  The timeout callback clears the interval,
closes the popup if still open, and resolves; nothing ever clears the timeout
itself, and message events have no handler in this transport. -/
def facebookPopupStep (s : PopupState) (e : PopupEvent) : PopupState :=
  match e with
  | .userClose => { s with popupOpen := false }
  | .message _ _ _ => s
  | .timeoutFire =>
    if s.timeoutActive then
      resolveP { s with timeoutActive := false, pollActive := false, popupOpen := false }
        (.failed { error := "Authentication timed out", errorCode := some .authFailed })
    else s
  | .pollTick urlRead =>
    if s.pollActive then
      if !s.popupOpen then
        resolveP { s with pollActive := false }
          (.failed { error := "Sign-in window was closed", errorCode := some .requestCanceled })
      else
        match urlRead with
        | none => s
        | some url =>
          if jsIncludes url "action=success" || jsIncludes url "action=failed" then
            resolveP { s with pollActive := false, popupOpen := false }
              (paramsToAuthResult (parseCallbackUrl url))
          else s
    else s

/-- Entry of googleLoginWeb and appleLoginWeb (providers/google.ts and
providers/apple.ts): as for facebook but a same-origin message listener is
also registered. -/
def listenerPopupInit (blocked : Bool) : PopupState :=
  if blocked then
    { settled := some (.failed { error := "Popup was blocked. Please allow popups for this site."
                                 errorCode := some .authFailed })
      pollActive := false, timeoutActive := false, listenerActive := false, popupOpen := false }
  else
    { settled := none, pollActive := true, timeoutActive := true
      listenerActive := true, popupOpen := true }

/-- Event handlers of googleLoginWeb and appleLoginWeb: the message handler
ignores foreign origins and non-oauth-callback payloads, else removes itself,
closes the popup and resolves on the message params; the poll and timeout
callbacks additionally remove the message listener. -/
def listenerPopupStep (s : PopupState) (e : PopupEvent) : PopupState :=
  match e with
  | .userClose => { s with popupOpen := false }
  | .message sameOrigin oauthCallback params =>
    if s.listenerActive then
      if !sameOrigin then s
      else if oauthCallback then
        resolveP { s with listenerActive := false, popupOpen := false }
          (paramsToAuthResult params)
      else s
    else s
  | .timeoutFire =>
    if s.timeoutActive then
      resolveP { s with timeoutActive := false, pollActive := false
                        listenerActive := false, popupOpen := false }
        (.failed { error := "Authentication timed out", errorCode := some .authFailed })
    else s
  | .pollTick urlRead =>
    if s.pollActive then
      if !s.popupOpen then
        resolveP { s with pollActive := false, listenerActive := false }
          (.failed { error := "Sign-in window was closed", errorCode := some .requestCanceled })
      else
        match urlRead with
        | none => s
        | some url =>
          if jsIncludes url "action=success" || jsIncludes url "action=failed" then
            resolveP { s with pollActive := false, listenerActive := false, popupOpen := false }
              (paramsToAuthResult (parseCallbackUrl url))
          else s
    else s

/-- Final state of a facebook popup attempt: the events of the attempt
followed by the timeout, which in reality always eventually fires. -/
def facebookPopupFinal (blocked : Bool) (events : List PopupEvent) : PopupState :=
  (events ++ [PopupEvent.timeoutFire]).foldl facebookPopupStep (facebookPopupInit blocked)

/-- Final state of a google or apple popup attempt. -/
def listenerPopupFinal (blocked : Bool) (events : List PopupEvent) : PopupState :=
  (events ++ [PopupEvent.timeoutFire]).foldl listenerPopupStep (listenerPopupInit blocked)

/-- Resolved value of the facebook popup promise.  The default is never
reached: after the timeout fires the attempt is settled (see the settlement
lemmas below). -/
def facebookPopupResult (blocked : Bool) (events : List PopupEvent) : AuthResult :=
  (facebookPopupFinal blocked events).settled.getD
    (.failed { error := "Authentication timed out", errorCode := some .authFailed })

/-- Resolved value of a google or apple popup promise. -/
def listenerPopupResult (blocked : Bool) (events : List PopupEvent) : AuthResult :=
  (listenerPopupFinal blocked events).settled.getD
    (.failed { error := "Authentication timed out", errorCode := some .authFailed })

/-! ## Embedded-session and native-credential transports -/

/-- Outcome of WebBrowser.openAuthSessionAsync in the mobile flows: a result
of type success carrying a return url (or not), a cancel or dismiss, any other
terminal type, or a thrown error (for example a failing require of the expo
modules), which the orchestrator boundary catches. -/
inductive SessionOutcome where
  | success (url : String)
  | successNoUrl
  | cancel
  | dismiss
  | otherType
  | thrown (raw : RawError)
deriving DecidableEq, Repr

/-- The mobile (embedded-session) flow shared verbatim by
googleLoginMobile, facebookLoginMobile and appleLoginMobile, composed with
the orchestrator catch that classifies rethrown errors. -/
def mobileSessionResult (s : SessionOutcome) : AuthResult :=
  match s with
  | .success url => paramsToAuthResult (parseCallbackUrl url)
  | .successNoUrl => .failed { error := "Authentication failed", errorCode := some .authFailed }
  | .cancel => .failed { error := "Sign-in was cancelled", errorCode := some .requestCanceled }
  | .dismiss => .failed { error := "Sign-in was cancelled", errorCode := some .requestCanceled }
  | .otherType => .failed { error := "Authentication failed", errorCode := some .authFailed }
  | .thrown raw => .failed (handleError raw)

/-- JavaScript or-else on strings (the empty string is falsy). -/
def jsOr (a b : String) : String := if a = "" then b else a

/-- Outcome of the backend verification POST in appleLoginNative: an ok
response with its JSON fields (absent and empty fields both modelled as the
empty string, which the or-chains treat alike), a non-ok status, or a thrown
fetch error. -/
inductive VerifyOutcome where
  | ok (id email name photo : String)
  | notOk
  | fetchThrow
deriving DecidableEq, Repr

/-- Outcome of the native Apple credential request in appleLoginNative:
availability re-probe negative, a credential (null email and name parts
modelled as none, plus whether an identity token was issued and the backend
verification outcome), or a throw from signInAsync or the require, carrying
the error code field when present. -/
inductive NativeOutcome where
  | unavailable
  | credential (user : String) (email : Option String) (givenName familyName : Option String)
      (hasIdentityToken : Bool) (verify : VerifyOutcome)
  | signInThrow (code : Option String) (raw : RawError)
deriving DecidableEq, Repr

/-- appleLoginNative from providers/apple.ts, composed with the orchestrator
catch (the unavailability SocialAuthError and non-cancel throws are rethrown
and classified there). -/
def appleNativeResult (o : NativeOutcome) : AuthResult :=
  match o with
  | .unavailable => .failed (handleError (.socialAuth .appleNotAvailable none))
  | .credential user email givenName familyName hasIdentityToken verify =>
    let fullName := jsTrim (givenName.getD "" ++ " " ++ familyName.getD "")
    let localEmail := email.getD ""
    if hasIdentityToken then
      match verify with
      | .ok id em nm ph =>
        .success { id := jsOr id user, email := jsOr em localEmail
                   name := jsOr nm fullName, photo := jsOr ph "" }
      | .notOk =>
        .success { id := user, email := localEmail, name := fullName, photo := "" }
      | .fetchThrow =>
        .success { id := user, email := localEmail, name := fullName, photo := "" }
    else
      .success { id := user, email := localEmail, name := fullName, photo := "" }
  | .signInThrow code raw =>
    if code == some "ERR_REQUEST_CANCELED" || code == some "ERR_CANCELED" then
      .failed { error := "Sign-in was cancelled", errorCode := some .requestCanceled }
    else .failed (handleError raw)

/-! ## Provider orchestrators and the legacy entry point (index.ts) -/

/-- The external world of one login call: the host environment, the popup
attempt inputs, the embedded-session outcome, the native-credential outcome,
and the ambient addresses used for default callback urls
(window.location.origin on web, Linking.createURL on native). -/
structure World where
  env : Env
  popupBlocked : Bool
  popupEvents : List PopupEvent
  session : SessionOutcome
  native : NativeOutcome
  webOrigin : String
  linkingURL : String
deriving Repr

/-- googleLogin from providers/google.ts: web popup (with message listener) on
a windowed non-expo host, else the embedded session. -/
def googleLoginModel (w : World) (opts : LoginOptions) : AuthResult :=
  let platform := getPlatformInfo w.env
  if platform.isWeb && !platform.isExpo then
    listenerPopupResult w.popupBlocked w.popupEvents
  else mobileSessionResult w.session

/-- facebookLogin from providers/facebook.ts: web popup (without message
listener) on a windowed non-expo host, else the embedded session. -/
def facebookLoginModel (w : World) (opts : LoginOptions) : AuthResult :=
  let platform := getPlatformInfo w.env
  if platform.isWeb && !platform.isExpo then
    facebookPopupResult w.popupBlocked w.popupEvents
  else mobileSessionResult w.session

/-- The three transports an apple login can select. -/
inductive Transport where
  | nativeCredential
  | popup
  | embeddedSession
deriving DecidableEq, Repr

/-- Transport selection of appleLogin from providers/apple.ts. -/
def appleTransport (e : Env) : Transport :=
  let platform := getPlatformInfo e
  let nativeAvailable := isNativeAppleAuthAvailable e
  if nativeAvailable && platform.isIOS && !platform.isWeb then .nativeCredential
  else if platform.isWeb && !platform.isExpo then .popup
  else .embeddedSession

/-- appleLogin from providers/apple.ts. -/
def appleLoginModel (w : World) (opts : LoginOptions) : AuthResult :=
  match appleTransport w.env with
  | .nativeCredential => appleNativeResult w.native
  | .popup => listenerPopupResult w.popupBlocked w.popupEvents
  | .embeddedSession => mobileSessionResult w.session

/-- The authorization url a web or mobile flow of a given provider opens,
from the shared flow bodies: explicit callbackUrl option, else the
host-derived default. -/
def loginAttemptUrl (provider : String) (w : World) (opts : LoginOptions) : String :=
  let backendUrl := opts.backendUrl.getD AUTH_BACKEND_URL
  let platform := getPlatformInfo w.env
  if platform.isWeb && !platform.isExpo then
    buildAuthUrl backendUrl provider (opts.callbackUrl.getD (w.webOrigin ++ "/auth/callback"))
  else
    buildAuthUrl backendUrl provider (opts.callbackUrl.getD w.linkingURL)

/-- Dispatch targets of the legacy fictionLogin switch in index.ts.  The
github and linkedin cases return googleLogin directly in the source, so they
dispatch to the google target. -/
inductive ProviderTarget where
  | google
  | apple
  | facebook
  | unknown
deriving DecidableEq, Repr

/-- The switch of fictionLogin over the lowercased provider name. -/
def dispatchKey (key : String) : ProviderTarget :=
  if key == "google" then .google
  else if key == "apple" then .apple
  else if key == "facebook" then .facebook
  else if key == "github" then .google
  else if key == "linkedin" then .google
  else .unknown

/-- Dispatch of fictionLogin from index.ts: switch on auth.toLowerCase(). -/
def fictionDispatch (auth : String) : ProviderTarget := dispatchKey (jsToLower auth)

/-- fictionLogin from index.ts: dispatch to the provider orchestrators; the
default branch throws SocialAuthError(UNKNOWN_PROVIDER, ...), which the
surrounding catch feeds to handleError. -/
def fictionLoginModel (auth : String) (w : World) (opts : LoginOptions) : AuthResult :=
  match fictionDispatch auth with
  | .google => googleLoginModel w opts
  | .apple => appleLoginModel w opts
  | .facebook => facebookLoginModel w opts
  | .unknown =>
    .failed (handleError (.socialAuth .unknownProvider (some ("Unknown provider: " ++ auth))))

/-! ## Concrete hosts and worlds for instantiations -/

/-- A native iOS Expo host with the apple module available. -/
def iosEnv : Env :=
  { isReactNative := true, expoDefined := true, rnPlatformOS := some "ios"
    uaIOS := false, uaAndroid := false, appleAuthModuleAvailable := true }

/-- A plain windowed-web host. -/
def webEnv : Env :=
  { isReactNative := false, expoDefined := false, rnPlatformOS := none
    uaIOS := false, uaAndroid := false, appleAuthModuleAvailable := false }

/-- A concrete world on the web host whose popup reports a failure marker on
the first poll. -/
def demoWorld : World :=
  { env := webEnv, popupBlocked := false
    popupEvents := [.pollTick (some "action=failed")]
    session := .cancel, native := .unavailable
    webOrigin := "https://app.example", linkingURL := "exp://127.0.0.1:8081" }

/-- Empty options. -/
def demoOpts : LoginOptions := { backendUrl := none, callbackUrl := none }

/-! ## Theorems -/

theorem error_messages_nonempty (code : ErrorCode) : ERROR_MESSAGES code ≠ "" := by
  cases code <;> decide

theorem socialAuthMessage_empty_iff (code : ErrorCode) (message : Option String) :
    socialAuthMessage code message ≠ "" := by
  unfold socialAuthMessage
  match message with
  | none => exact error_messages_nonempty code
  | some m =>
    by_cases h : m = ""
    · simpa [h] using error_messages_nonempty code
    · simpa [h] using h

/-- C1 (amended).  For every parameter mapping, paramsToAuthResult returns a
Success if and only if action equals success and id and email are present and
non-empty; the success user is built from id, email, name and photo with
empty-string defaults; in every other case it returns a Failure with no
errorCode whose error is params.error when present and non-empty, else the
default message (JavaScript or, not nullish-coalescing: a present-but-empty
error parameter also falls back to the default). -/
theorem paramsToAuthResult_spec (params : List (String × String)) :
    ((∃ u, paramsToAuthResult params = .success u) ↔
      (getParam params "action" = some "success" ∧
        jsTruthy (getParam params "id") = true ∧ jsTruthy (getParam params "email") = true))
    ∧ (∀ u, paramsToAuthResult params = .success u →
        u = { id := (getParam params "id").getD "", email := (getParam params "email").getD ""
              name := (getParam params "name").getD ""
              photo := (getParam params "photo").getD "" })
    ∧ (¬(getParam params "action" = some "success" ∧ jsTruthy (getParam params "id") = true ∧
          jsTruthy (getParam params "email") = true) →
        paramsToAuthResult params =
          .failed { error := jsOrElse (getParam params "error") "Authentication failed"
                    errorCode := none }) := by
  unfold paramsToAuthResult
  by_cases hc : getParam params "action" = some "success" ∧
      jsTruthy (getParam params "id") = true ∧ jsTruthy (getParam params "email") = true
  · obtain ⟨h1, h2, h3⟩ := hc
    simp [h1, h2, h3]
  · have hb : (getParam params "action" == some "success"
        && jsTruthy (getParam params "id") && jsTruthy (getParam params "email")) = false := by
      rcases Decidable.not_and_iff_or_not.mp hc with h | h'
      · simp [beq_eq_false_iff_ne.mpr h]
      · rcases Decidable.not_and_iff_or_not.mp h' with h | h
        · simp [Bool.eq_false_iff.mpr h]
        · simp [Bool.eq_false_iff.mpr h]
    simp only [hb]
    refine ⟨?_, ?_, ?_⟩
    · simp [hc]
    · intro u hu
      simp at hu
    · intro _
      simp

/-- C1 witness: the amended theorem at a concrete success mapping and at a
concrete mapping whose error parameter is present but empty. -/
theorem paramsToAuthResult_spec_witness :
    paramsToAuthResult [("action", "failed"), ("error", "")]
      = .failed { error := jsOrElse (getParam [("action", "failed"), ("error", "")] "error")
                              "Authentication failed"
                  errorCode := none } :=
  (paramsToAuthResult_spec [("action", "failed"), ("error", "")]).2.2 (by decide)

/-- C1 counterexample: with the error parameter present and empty, the code
answers the default message, while the claim (params.error with
nullish-coalescing) requires the empty string. -/
theorem paramsToAuthResult_empty_error_counterexample :
    paramsToAuthResult [("action", "failed"), ("error", "")]
        = .failed { error := "Authentication failed", errorCode := none }
      ∧ paramsToAuthResult [("action", "failed"), ("error", "")]
        ≠ .failed { error := "", errorCode := none } := by
  decide

/-- C2.  The error classifier: a raised SocialAuthError passes its code (and
stored message) through unchanged; otherwise the message of an Error is
tested case-insensitively in fixed priority order for the cancel, network and
token word groups; when none matches the result is AuthFailed with the raw
message preserved verbatim; non-Error-shaped values resolve to the generic
AuthFailed failure. -/
theorem handleError_classifier_spec :
    (∀ code message, (handleError (.socialAuth code message)).errorCode = some code
        ∧ (handleError (.socialAuth code message)).error = socialAuthMessage code message)
    ∧ (∀ m, (jsIncludes (jsToLower m) "cancel" || jsIncludes (jsToLower m) "cancelled"
          || jsIncludes (jsToLower m) "dismissed") = true →
        handleError (.jsError m)
          = { error := ERROR_MESSAGES .requestCanceled, errorCode := some .requestCanceled })
    ∧ (∀ m, (jsIncludes (jsToLower m) "cancel" || jsIncludes (jsToLower m) "cancelled"
          || jsIncludes (jsToLower m) "dismissed") = false →
        (jsIncludes (jsToLower m) "network" || jsIncludes (jsToLower m) "fetch"
          || jsIncludes (jsToLower m) "connection") = true →
        handleError (.jsError m)
          = { error := ERROR_MESSAGES .networkError, errorCode := some .networkError })
    ∧ (∀ m, (jsIncludes (jsToLower m) "cancel" || jsIncludes (jsToLower m) "cancelled"
          || jsIncludes (jsToLower m) "dismissed") = false →
        (jsIncludes (jsToLower m) "network" || jsIncludes (jsToLower m) "fetch"
          || jsIncludes (jsToLower m) "connection") = false →
        (jsIncludes (jsToLower m) "token" || jsIncludes (jsToLower m) "invalid"
          || jsIncludes (jsToLower m) "expired") = true →
        handleError (.jsError m)
          = { error := ERROR_MESSAGES .invalidToken, errorCode := some .invalidToken })
    ∧ (∀ m, (jsIncludes (jsToLower m) "cancel" || jsIncludes (jsToLower m) "cancelled"
          || jsIncludes (jsToLower m) "dismissed") = false →
        (jsIncludes (jsToLower m) "network" || jsIncludes (jsToLower m) "fetch"
          || jsIncludes (jsToLower m) "connection") = false →
        (jsIncludes (jsToLower m) "token" || jsIncludes (jsToLower m) "invalid"
          || jsIncludes (jsToLower m) "expired") = false →
        handleError (.jsError m) = { error := m, errorCode := some .authFailed })
    ∧ handleError .nonError
        = { error := "An unexpected error occurred", errorCode := some .authFailed } := by
  refine ⟨fun code message => ⟨rfl, rfl⟩, ?_, ?_, ?_, ?_, rfl⟩
  · intro m h
    simp [handleError, h]
  · intro m h1 h2
    simp [handleError, h1, h2]
  · intro m h1 h2 h3
    simp [handleError, h1, h2, h3]
  · intro m h1 h2 h3
    simp [handleError, h1, h2, h3]

/-- C2 witness: the classifier theorem applied at concrete raised values of
each shape. -/
theorem handleError_classifier_spec_witness :
    handleError (.jsError "The user Dismissed the dialog")
        = { error := ERROR_MESSAGES .requestCanceled, errorCode := some .requestCanceled }
      ∧ handleError (.jsError "boom")
        = { error := "boom", errorCode := some .authFailed } :=
  ⟨handleError_classifier_spec.2.1 "The user Dismissed the dialog" (by decide),
    handleError_classifier_spec.2.2.2.2.1 "boom" (by decide) (by decide) (by decide)⟩

/-- C3 (amended).  handleError is total (it is a function into
AuthFailedResult: nothing is thrown), its errorCode is always exactly one
member of the closed enumeration, and its error string is non-empty except in
the single case of an Error-shaped value whose message is the empty string
and matches no known pattern, where the empty message is preserved
verbatim. -/
theorem handleError_total_amended (raw : RawError) :
    (handleError raw).errorCode.isSome = true
    ∧ ((handleError raw).error = "" ↔ raw = .jsError "") := by
  match raw with
  | .socialAuth code message =>
    refine ⟨rfl, ?_⟩
    simp [handleError]
    exact socialAuthMessage_empty_iff code message
  | .jsError m =>
    unfold handleError
    by_cases h1 : (jsIncludes (jsToLower m) "cancel" || jsIncludes (jsToLower m) "cancelled"
        || jsIncludes (jsToLower m) "dismissed") = true
    · refine ⟨by simp [h1], ?_⟩
      simp only [h1, if_true]
      constructor
      · intro h
        exact absurd h (error_messages_nonempty .requestCanceled)
      · intro h
        cases h
        simp [jsIncludes, hasSeg, startsList, jsToLower] at h1
    · by_cases h2 : (jsIncludes (jsToLower m) "network" || jsIncludes (jsToLower m) "fetch"
          || jsIncludes (jsToLower m) "connection") = true
      · refine ⟨by simp [h1, h2], ?_⟩
        simp only [Bool.not_eq_true] at h1
        simp only [h1, h2, if_true, Bool.false_eq_true, if_false]
        constructor
        · intro h
          exact absurd h (error_messages_nonempty .networkError)
        · intro h
          cases h
          simp [jsIncludes, hasSeg, startsList, jsToLower] at h2
      · by_cases h3 : (jsIncludes (jsToLower m) "token" || jsIncludes (jsToLower m) "invalid"
            || jsIncludes (jsToLower m) "expired") = true
        · refine ⟨by simp [h1, h2, h3], ?_⟩
          simp only [Bool.not_eq_true] at h1 h2
          simp only [h1, h2, h3, if_true, Bool.false_eq_true, if_false]
          constructor
          · intro h
            exact absurd h (error_messages_nonempty .invalidToken)
          · intro h
            cases h
            simp [jsIncludes, hasSeg, startsList, jsToLower] at h3
        · simp only [Bool.not_eq_true] at h1 h2 h3
          refine ⟨by simp [h1, h2, h3], ?_⟩
          simp only [h1, h2, h3, Bool.false_eq_true, if_false]
          constructor
          · intro h
            simpa using congrArg RawError.jsError h
          · intro h
            cases h
            rfl
  | .nonError => exact ⟨rfl, by simp [handleError]⟩

/-- C3 witness: the amended theorem at a concrete non-Error-shaped raw
value. -/
theorem handleError_total_amended_witness :
    (handleError .nonError).errorCode.isSome = true
      ∧ ((handleError .nonError).error = "" ↔ RawError.nonError = .jsError "") :=
  handleError_total_amended .nonError

/-- C3 counterexample: a standard Error with an empty message yields an empty
error string, contradicting the claim that the classifier never returns an
empty error string. -/
theorem handleError_empty_message_counterexample :
    (handleError (.jsError "")).error = ""
      ∧ (handleError (.jsError "")).errorCode = some .authFailed := by
  decide

theorem supports_eq (e : Env) :
    (getPlatformInfo e).supportsNativeAppleAuth
      = ((getPlatformInfo e).isIOS && (getPlatformInfo e).isExpo
          && !(getPlatformInfo e).isWeb) := rfl

theorem transport_order_comm (i x w m : Bool) :
    (if i && x && !w && m && i && !w then Transport.nativeCredential
     else if w && !x then Transport.popup else Transport.embeddedSession)
    = (if w && !x then Transport.popup
       else if i && x && !w && m then Transport.nativeCredential
       else Transport.embeddedSession) := by
  cases i <;> cases x <;> cases w <;> cases m <;> rfl

theorem transport_no_overlap (i x w m : Bool) :
    ¬((w && !x) = true ∧ (i && x && !w && m) = true) := by
  cases i <;> cases x <;> cases w <;> cases m <;> simp

theorem and3_elim (i x w : Bool) (h : (i && x && !w) = true) :
    i = true ∧ x = true ∧ w = false := by
  cases i <;> cases x <;> cases w <;> simp_all

/-- C6.  appleLogin selects the popup transport exactly on a windowed-web,
non-embedded host, else the native credential transport exactly when the
native Apple capability is available, else the embedded session (the source
tests the native condition first, but the conditions never overlap, so the
order stated by the specification gives the same transport); and
supportsNativeAppleAuth holds only with isIOS and isExpo and not isWeb.
The selection reads only the platform outcome, never the LoginOptions. -/
theorem appleTransport_dispatch_spec (e : Env) :
    appleTransport e
      = (if (getPlatformInfo e).isWeb && !(getPlatformInfo e).isExpo then .popup
         else if isNativeAppleAuthAvailable e then .nativeCredential
         else .embeddedSession)
    ∧ ((getPlatformInfo e).supportsNativeAppleAuth = true →
        (getPlatformInfo e).isIOS = true ∧ (getPlatformInfo e).isExpo = true
          ∧ (getPlatformInfo e).isWeb = false)
    ∧ ¬(((getPlatformInfo e).isWeb && !(getPlatformInfo e).isExpo) = true
        ∧ isNativeAppleAuthAvailable e = true) := by
  refine ⟨?_, ?_, ?_⟩
  · show (if isNativeAppleAuthAvailable e && (getPlatformInfo e).isIOS
          && !(getPlatformInfo e).isWeb then Transport.nativeCredential
        else if (getPlatformInfo e).isWeb && !(getPlatformInfo e).isExpo then .popup
        else .embeddedSession) = _
    rw [show isNativeAppleAuthAvailable e
        = ((getPlatformInfo e).isIOS && (getPlatformInfo e).isExpo
            && !(getPlatformInfo e).isWeb && e.appleAuthModuleAvailable) from rfl]
    exact transport_order_comm _ _ _ _
  · intro h
    rw [supports_eq] at h
    exact and3_elim _ _ _ h
  · rw [show isNativeAppleAuthAvailable e
        = ((getPlatformInfo e).isIOS && (getPlatformInfo e).isExpo
            && !(getPlatformInfo e).isWeb && e.appleAuthModuleAvailable) from rfl]
    exact transport_no_overlap _ _ _ _

/-- C6 witness: the dispatch theorem at the concrete native iOS host and the
concrete web host. -/
theorem appleTransport_dispatch_spec_witness :
    ((getPlatformInfo iosEnv).isIOS = true ∧ (getPlatformInfo iosEnv).isExpo = true
      ∧ (getPlatformInfo iosEnv).isWeb = false)
    ∧ appleTransport webEnv
      = (if (getPlatformInfo webEnv).isWeb && !(getPlatformInfo webEnv).isExpo then .popup
         else if isNativeAppleAuthAvailable webEnv then .nativeCredential
         else .embeddedSession) :=
  ⟨(appleTransport_dispatch_spec iosEnv).2.1 (by decide),
    (appleTransport_dispatch_spec webEnv).1⟩

theorem append_ne_empty_left (a b : String) (h : a ≠ "") : a ++ b ≠ "" := by
  intro hc
  apply h
  have hd := congrArg String.data hc
  rw [String.data_append] at hd
  rcases List.append_eq_nil.mp hd with ⟨h1, _⟩
  cases a
  cases h1
  rfl

/-- C7.  The legacy fictionLogin entry point: it is a total function into
AuthResult (the model of the try/catch body, so nothing escapes as a raised
exception); dispatch depends only on the lowercased provider name
(case-insensitive match); the google, apple and facebook names reach their
respective orchestrators; and every name matching no known provider yields a
Failure carrying errorCode UnknownProvider (and a non-empty message). -/
theorem fictionLogin_dispatch_spec :
    (∀ n1 n2 : String, jsToLower n1 = jsToLower n2 → fictionDispatch n1 = fictionDispatch n2)
    ∧ (∀ auth w opts, jsToLower auth = "google" →
        fictionLoginModel auth w opts = googleLoginModel w opts)
    ∧ (∀ auth w opts, jsToLower auth = "apple" →
        fictionLoginModel auth w opts = appleLoginModel w opts)
    ∧ (∀ auth w opts, jsToLower auth = "facebook" →
        fictionLoginModel auth w opts = facebookLoginModel w opts)
    ∧ (∀ auth (w : World) (opts : LoginOptions), fictionDispatch auth = .unknown →
        fictionLoginModel auth w opts
          = .failed { error := "Unknown provider: " ++ auth
                      errorCode := some .unknownProvider }) := by
  refine ⟨?_, ?_, ?_, ?_, ?_⟩
  · intro n1 n2 h
    unfold fictionDispatch
    rw [h]
  · intro auth w opts h
    unfold fictionLoginModel fictionDispatch
    rw [h]
    rfl
  · intro auth w opts h
    unfold fictionLoginModel fictionDispatch
    rw [h]
    rfl
  · intro auth w opts h
    unfold fictionLoginModel fictionDispatch
    rw [h]
    rfl
  · intro auth w opts h
    unfold fictionLoginModel
    rw [h]
    have hm : socialAuthMessage .unknownProvider (some ("Unknown provider: " ++ auth))
        = "Unknown provider: " ++ auth := by
      show (if ("Unknown provider: " ++ auth) = "" then ERROR_MESSAGES ErrorCode.unknownProvider
        else "Unknown provider: " ++ auth) = "Unknown provider: " ++ auth
      rw [if_neg (append_ne_empty_left "Unknown provider: " auth (by decide))]
    simp [handleError, hm]

/-- C7 witness: the dispatch theorem at concrete mixed-case and unknown
provider names on a concrete world. -/
theorem fictionLogin_dispatch_spec_witness :
    fictionLoginModel "GoOgLe" demoWorld demoOpts = googleLoginModel demoWorld demoOpts
    ∧ fictionLoginModel "twitter" demoWorld demoOpts
      = .failed { error := "Unknown provider: twitter", errorCode := some .unknownProvider } :=
  ⟨fictionLogin_dispatch_spec.2.1 "GoOgLe" demoWorld demoOpts (by decide),
    fictionLogin_dispatch_spec.2.2.2.2 "twitter" demoWorld demoOpts (by decide)⟩

/-- C10.  A github or linkedin provider name (case-insensitively) makes
fictionLogin invoke the google orchestrator: the returned result is the
google flow's result, the dispatch target is google, and the authorization
url the invoked flow opens ends in the query parameter auth equals google
rather than the requested provider name. -/
theorem fictionLogin_github_linkedin_spec (auth : String) (w : World) (opts : LoginOptions)
    (h : jsToLower auth = "github" ∨ jsToLower auth = "linkedin") :
    fictionLoginModel auth w opts = googleLoginModel w opts
    ∧ fictionDispatch auth = .google
    ∧ (∃ pre, loginAttemptUrl "google" w opts = pre ++ "&auth=google") := by
  have hd : fictionDispatch auth = .google := by
    unfold fictionDispatch
    rcases h with h | h <;> rw [h] <;> rfl
  refine ⟨?_, hd, ?_⟩
  · unfold fictionLoginModel
    rw [hd]
  · unfold loginAttemptUrl buildAuthUrl
    by_cases hw : ((getPlatformInfo w.env).isWeb && !(getPlatformInfo w.env).isExpo) = true
    · refine ⟨(opts.backendUrl.getD AUTH_BACKEND_URL) ++ "?backto="
        ++ encodeURIComponent (opts.callbackUrl.getD (w.webOrigin ++ "/auth/callback")), ?_⟩
      rw [if_pos hw, String.append_assoc]
      rfl
    · refine ⟨(opts.backendUrl.getD AUTH_BACKEND_URL) ++ "?backto="
        ++ encodeURIComponent (opts.callbackUrl.getD w.linkingURL), ?_⟩
      rw [if_neg hw, String.append_assoc]
      rfl

/-- C10 witness: the theorem at a concrete mixed-case linkedin name on a
concrete world. -/
theorem fictionLogin_github_linkedin_spec_witness :
    fictionLoginModel "LinkedIn" demoWorld demoOpts = googleLoginModel demoWorld demoOpts
    ∧ fictionDispatch "LinkedIn" = .google
    ∧ (∃ pre, loginAttemptUrl "google" demoWorld demoOpts = pre ++ "&auth=google") :=
  fictionLogin_github_linkedin_spec "LinkedIn" demoWorld demoOpts (Or.inr (by decide))

theorem facebookPopup_step_settled (s : PopupState) (e : PopupEvent) (r : AuthResult)
    (hr : s.settled = some r) : (facebookPopupStep s e).settled = some r := by
  cases e with
  | userClose => simpa [facebookPopupStep] using hr
  | message so oc ps => simpa [facebookPopupStep] using hr
  | timeoutFire =>
    cases ht : s.timeoutActive <;> simp [facebookPopupStep, ht, resolveP, hr]
  | pollTick urlRead =>
    cases hp : s.pollActive
    · simpa [facebookPopupStep, hp] using hr
    · cases ho : s.popupOpen
      · simp [facebookPopupStep, hp, ho, resolveP, hr]
      · cases urlRead with
        | none => simpa [facebookPopupStep, hp, ho] using hr
        | some url =>
          by_cases hm : (jsIncludes url "action=success" || jsIncludes url "action=failed") = true
          · simp [facebookPopupStep, hp, ho, hm, resolveP, hr]
          · simp only [Bool.not_eq_true] at hm
            simpa [facebookPopupStep, hp, ho, hm] using hr

theorem facebookPopup_fold_settled (evs : List PopupEvent) (s : PopupState) (r : AuthResult)
    (hr : s.settled = some r) : (evs.foldl facebookPopupStep s).settled = some r := by
  induction evs generalizing s with
  | nil => simpa using hr
  | cons e evs ih =>
    simpa using ih (facebookPopupStep s e) (facebookPopup_step_settled s e r hr)

theorem facebookPopup_step_inactive (s : PopupState) (e : PopupEvent)
    (hp : s.pollActive = false) (ht : s.timeoutActive = false)
    (hl : s.listenerActive = false) :
    (facebookPopupStep s e).pollActive = false
    ∧ (facebookPopupStep s e).timeoutActive = false
    ∧ (facebookPopupStep s e).listenerActive = false := by
  cases e with
  | userClose => simp [facebookPopupStep, hp, ht, hl]
  | message so oc ps => simp [facebookPopupStep, hp, ht, hl]
  | timeoutFire => simp [facebookPopupStep, hp, ht, hl]
  | pollTick urlRead => simp [facebookPopupStep, hp, ht, hl]

theorem facebookPopup_fold_inactive (evs : List PopupEvent) (s : PopupState)
    (hp : s.pollActive = false) (ht : s.timeoutActive = false)
    (hl : s.listenerActive = false) :
    (evs.foldl facebookPopupStep s).pollActive = false
    ∧ (evs.foldl facebookPopupStep s).timeoutActive = false
    ∧ (evs.foldl facebookPopupStep s).listenerActive = false := by
  induction evs generalizing s with
  | nil => exact ⟨hp, ht, hl⟩
  | cons e evs ih =>
    obtain ⟨h1, h2, h3⟩ := facebookPopup_step_inactive s e hp ht hl
    simpa using ih (facebookPopupStep s e) h1 h2 h3

/-- C8 (amended).  In the facebook popup transport, at most one resolution
path takes effect: once the attempt has settled, any later poll detection,
popup-closed detection or timeout leaves the settled result unchanged (and no
message listener exists in this transport at all).  At the settling step the
polling interval is cleared and the popup is closed (or already closed), but
the timeout timer is NOT cleared at settlement: no source path clears it, so
it stays registered until it fires, at which point its own resolution attempt
is a no-op. -/
theorem facebookPopup_single_settlement_spec (s : PopupState) (e : PopupEvent) :
    (∀ r (evs : List PopupEvent), s.settled = some r →
      (evs.foldl facebookPopupStep s).settled = some r)
    ∧ (∀ r, s.settled = none → (facebookPopupStep s e).settled = some r →
        (facebookPopupStep s e).pollActive = false
          ∧ (facebookPopupStep s e).popupOpen = false) := by
  constructor
  · intro r evs hr
    exact facebookPopup_fold_settled evs s r hr
  · intro r hn hs
    cases e with
    | userClose => simp [facebookPopupStep, hn] at hs
    | message so oc ps => simp [facebookPopupStep, hn] at hs
    | timeoutFire =>
      cases ht : s.timeoutActive
      · simp [facebookPopupStep, ht, hn] at hs
      · simp [facebookPopupStep, ht, resolveP, hn]
    | pollTick urlRead =>
      cases hp : s.pollActive
      · simp [facebookPopupStep, hp, hn] at hs
      · cases ho : s.popupOpen
        · simp [facebookPopupStep, hp, ho, resolveP, hn]
        · cases urlRead with
          | none => simp [facebookPopupStep, hp, ho, hn] at hs
          | some url =>
            by_cases hm : (jsIncludes url "action=success" || jsIncludes url "action=failed") = true
            · simp [facebookPopupStep, hp, ho, hm, resolveP, hn]
            · simp only [Bool.not_eq_true] at hm
              simp [facebookPopupStep, hp, ho, hm, hn] at hs

/-- C8 witness: the amended theorem at the concrete unsettled attempt hit by
the timeout, and at a settled attempt hit by later events. -/
theorem facebookPopup_single_settlement_spec_witness :
    ((facebookPopupStep (facebookPopupInit false) .timeoutFire).pollActive = false
      ∧ (facebookPopupStep (facebookPopupInit false) .timeoutFire).popupOpen = false)
    ∧ ([PopupEvent.timeoutFire, PopupEvent.pollTick none].foldl facebookPopupStep
          (facebookPopupInit true)).settled
        = some (.failed { error := "Popup was blocked. Please allow popups for this site."
                          errorCode := some .authFailed }) :=
  ⟨(facebookPopup_single_settlement_spec (facebookPopupInit false) .timeoutFire).2
      (.failed { error := "Authentication timed out", errorCode := some .authFailed })
      rfl (by decide),
    (facebookPopup_single_settlement_spec (facebookPopupInit true) .timeoutFire).1
      (.failed { error := "Popup was blocked. Please allow popups for this site."
                 errorCode := some .authFailed })
      [PopupEvent.timeoutFire, PopupEvent.pollTick none] rfl⟩

/-- C8 counterexample: a poll tick that sees the success or failure marker
settles the attempt, yet the timeout timer is still registered afterwards
(and the transport never held a message listener), contradicting the claim
that all three resources are torn down at settlement. -/
theorem facebookPopup_timeout_leak_counterexample :
    ((facebookPopupStep (facebookPopupInit false) (.pollTick (some "action=failed"))).settled
        = some (.failed { error := "Authentication failed", errorCode := none }))
    ∧ (facebookPopupStep (facebookPopupInit false)
        (.pollTick (some "action=failed"))).timeoutActive = true
    ∧ (facebookPopupInit false).listenerActive = false := by
  decide

/-- C9.  A blocked popup (null handle) resolves the facebook attempt
immediately with an AuthFailed failure carrying the popup-blocked message,
and neither the polling interval, nor the timeout, nor any message listener
is registered then or at any later point of that attempt. -/
theorem facebookPopup_blocked_spec (events : List PopupEvent) :
    facebookPopupInit true
      = { settled := some (.failed { error := "Popup was blocked. Please allow popups for this site."
                                     errorCode := some .authFailed })
          pollActive := false, timeoutActive := false, listenerActive := false
          popupOpen := false }
    ∧ (events.foldl facebookPopupStep (facebookPopupInit true)).pollActive = false
    ∧ (events.foldl facebookPopupStep (facebookPopupInit true)).timeoutActive = false
    ∧ (events.foldl facebookPopupStep (facebookPopupInit true)).listenerActive = false
    ∧ (events.foldl facebookPopupStep (facebookPopupInit true)).settled
        = some (.failed { error := "Popup was blocked. Please allow popups for this site."
                          errorCode := some .authFailed }) := by
  obtain ⟨h1, h2, h3⟩ := facebookPopup_fold_inactive events (facebookPopupInit true)
    rfl rfl rfl
  exact ⟨rfl, h1, h2, h3,
    facebookPopup_fold_settled events (facebookPopupInit true) _ rfl⟩

/-- C9 witness: the blocked-popup theorem at a concrete event list. -/
theorem facebookPopup_blocked_spec_witness :
    ([PopupEvent.pollTick (some "action=success&id=1&email=e"),
        PopupEvent.timeoutFire].foldl facebookPopupStep (facebookPopupInit true)).settled
      = some (.failed { error := "Popup was blocked. Please allow popups for this site."
                        errorCode := some .authFailed }) :=
  (facebookPopup_blocked_spec [PopupEvent.pollTick (some "action=success&id=1&email=e"),
    PopupEvent.timeoutFire]).2.2.2.2

theorem char_valid (c : Char) :
    c.toNat < 0xD800 ∨ (0xDFFF < c.toNat ∧ c.toNat < 0x110000) := c.valid

theorem char_toNat_lt (c : Char) : c.toNat < 0x110000 := by
  rcases char_valid c with h | ⟨_, h⟩ <;> omega

theorem hexRound (n : Nat) (h : n < 16) : hexDigitVal (hexDigitChar n) = some n := by
  interval_cases n <;> decide

theorem utf8Bytes_lt_256 (n : Nat) (hn : n < 0x110000) : ∀ b ∈ utf8Bytes n, b < 256 := by
  intro b hb
  unfold utf8Bytes at hb
  by_cases h1 : n < 0x80
  · simp [h1] at hb
    omega
  · by_cases h2 : n < 0x800
    · simp [h1, h2] at hb
      rcases hb with hb | hb <;> omega
    · by_cases h3 : n < 0x10000
      · simp [h1, h2, h3] at hb
        rcases hb with hb | hb | hb <;> omega
      · simp [h1, h2, h3] at hb
        rcases hb with hb | hb | hb | hb <;> omega

theorem uriTokens_raw (c : Char) (hc : ¬c = '%') (l : List Char) :
    uriTokens (c :: l) = (uriTokens l).map (fun ts => UriTok.raw c :: ts) := by
  cases l with
  | nil => simp [uriTokens, hc]
  | cons h1 rest =>
    cases rest with
    | nil => simp [uriTokens, hc]
    | cons h2 rest2 => simp [uriTokens, hc]

theorem uriTokens_esc (b : Nat) (hb : b < 256) (l : List Char) :
    uriTokens (byteEsc b ++ l) = (uriTokens l).map (fun ts => UriTok.byte b :: ts) := by
  have hd : b / 16 < 16 := by omega
  have hm : b % 16 < 16 := by omega
  show uriTokens ('%' :: hexDigitChar (b / 16) :: hexDigitChar (b % 16) :: l) = _
  simp only [uriTokens, hexRound _ hd, hexRound _ hm, Option.some_bind]
  rw [Nat.div_add_mod]

theorem uriTokens_escList (bs : List Nat) (h : ∀ b ∈ bs, b < 256) (l : List Char) :
    uriTokens (bs.flatMap byteEsc ++ l)
      = (uriTokens l).map (fun ts => bs.map UriTok.byte ++ ts) := by
  induction bs with
  | nil =>
    simp only [List.flatMap_nil, List.nil_append, List.map_nil]
    cases uriTokens l <;> rfl
  | cons b bs ih =>
    have hb := h b (by simp)
    have hrest : ∀ x ∈ bs, x < 256 := fun x hx => h x (by simp [hx])
    rw [List.flatMap_cons, List.append_assoc, uriTokens_esc b hb, ih hrest]
    cases uriTokens l <;> rfl

theorem uriTokens_encChar (c : Char) (l : List Char) :
    uriTokens (encChar c ++ l) = (uriTokens l).map (fun ts => encCharToks c ++ ts) := by
  by_cases h : isUnreservedURI c = true
  · have hc : ¬c = '%' := by
      rintro rfl
      exact absurd h (by decide)
    rw [show encChar c = [c] from by simp [encChar, h]]
    rw [show encCharToks c = [.raw c] from by simp [encCharToks, h]]
    exact uriTokens_raw c hc l
  · rw [show encChar c = (utf8Bytes c.toNat).flatMap byteEsc from by simp [encChar, h]]
    rw [show encCharToks c = (utf8Bytes c.toNat).map .byte from by simp [encCharToks, h]]
    exact uriTokens_escList _ (utf8Bytes_lt_256 _ (char_toNat_lt c)) l

theorem uriTokens_encFlat (l : List Char) :
    uriTokens (l.flatMap encChar) = some (l.flatMap encCharToks) := by
  induction l with
  | nil => rfl
  | cons c l ih =>
    rw [List.flatMap_cons, List.flatMap_cons, uriTokens_encChar, ih]
    rfl

theorem assembleFrom_byte0 (b : Nat) (ts : List UriTok) :
    assembleFrom 0 0 0 (.byte b :: ts)
      = (if b < 0x80 then (assembleFrom 0 0 0 ts).map (fun l => Char.ofNat b :: l)
        else if b < 0xC0 then none
        else if b < 0xE0 then assembleFrom 1 0x80 (b - 0xC0) ts
        else if b < 0xF0 then assembleFrom 2 0x800 (b - 0xE0) ts
        else if b < 0xF8 then assembleFrom 3 0x10000 (b - 0xF0) ts
        else none) := rfl

theorem assembleFrom_cont (k lo acc b : Nat) (ts : List UriTok) :
    assembleFrom (k + 1) lo acc (.byte b :: ts)
      = (if isContByte b then
          if k = 0 then
            if lo ≤ acc * 64 + (b - 0x80)
                ∧ ¬(0xD800 ≤ acc * 64 + (b - 0x80) ∧ acc * 64 + (b - 0x80) ≤ 0xDFFF)
                ∧ acc * 64 + (b - 0x80) ≤ 0x10FFFF then
              (assembleFrom 0 0 0 ts).map (fun l => Char.ofNat (acc * 64 + (b - 0x80)) :: l)
            else none
          else assembleFrom k lo (acc * 64 + (b - 0x80)) ts
        else none) := rfl

theorem assemble_cons_raw (c : Char) (ts : List UriTok) :
    assembleUtf8 (.raw c :: ts) = (assembleUtf8 ts).map (fun l => c :: l) := rfl

theorem assemble_cons_ascii (b : Nat) (hb : b < 0x80) (ts : List UriTok) :
    assembleUtf8 (.byte b :: ts) = (assembleUtf8 ts).map (fun l => Char.ofNat b :: l) := by
  show assembleFrom 0 0 0 (.byte b :: ts) = _
  rw [assembleFrom_byte0, if_pos hb]
  rfl

theorem assemble_two (n : Nat) (h1 : 0x80 ≤ n) (h2 : n < 0x800) (ts : List UriTok) :
    assembleFrom 0 0 0 (.byte (0xC0 + n / 64) :: .byte (0x80 + n % 64) :: ts)
      = (assembleFrom 0 0 0 ts).map (fun l => Char.ofNat n :: l) := by
  rw [assembleFrom_byte0]
  rw [if_neg (by omega), if_neg (by omega), if_pos (by omega)]
  rw [assembleFrom_cont]
  rw [if_pos (show isContByte (0x80 + n % 64) = true by simp [isContByte]; omega)]
  rw [if_pos rfl]
  rw [if_pos (show _ ∧ _ ∧ _ from by refine ⟨by omega, by omega, by omega⟩)]
  rw [show (0xC0 + n / 64 - 0xC0) * 64 + (0x80 + n % 64 - 0x80) = n from by omega]

theorem assemble_three (n : Nat) (h1 : 0x800 ≤ n) (h2 : n < 0x10000)
    (h3 : ¬(0xD800 ≤ n ∧ n ≤ 0xDFFF)) (ts : List UriTok) :
    assembleFrom 0 0 0 (.byte (0xE0 + n / 4096) :: .byte (0x80 + n / 64 % 64)
        :: .byte (0x80 + n % 64) :: ts)
      = (assembleFrom 0 0 0 ts).map (fun l => Char.ofNat n :: l) := by
  have hv1 : (0xE0 + n / 4096 - 0xE0) * 64 + (0x80 + n / 64 % 64 - 0x80) = n / 64 := by omega
  rw [assembleFrom_byte0]
  rw [if_neg (by omega), if_neg (by omega), if_neg (by omega), if_pos (by omega)]
  rw [assembleFrom_cont]
  rw [if_pos (show isContByte (0x80 + n / 64 % 64) = true by simp [isContByte]; omega)]
  rw [if_neg (by omega)]
  rw [assembleFrom_cont]
  rw [if_pos (show isContByte (0x80 + n % 64) = true by simp [isContByte]; omega)]
  rw [if_pos rfl]
  rw [hv1]
  rw [if_pos (show _ ∧ _ ∧ _ from by refine ⟨by omega, by omega, by omega⟩)]
  rw [show n / 64 * 64 + (0x80 + n % 64 - 0x80) = n from by omega]

theorem assemble_four (n : Nat) (h1 : 0x10000 ≤ n) (h2 : n < 0x110000) (ts : List UriTok) :
    assembleFrom 0 0 0 (.byte (0xF0 + n / 262144) :: .byte (0x80 + n / 4096 % 64)
        :: .byte (0x80 + n / 64 % 64) :: .byte (0x80 + n % 64) :: ts)
      = (assembleFrom 0 0 0 ts).map (fun l => Char.ofNat n :: l) := by
  have hv1 : (0xF0 + n / 262144 - 0xF0) * 64 + (0x80 + n / 4096 % 64 - 0x80) = n / 4096 := by
    omega
  rw [assembleFrom_byte0]
  rw [if_neg (by omega), if_neg (by omega), if_neg (by omega), if_neg (by omega),
    if_pos (by omega)]
  rw [assembleFrom_cont]
  rw [if_pos (show isContByte (0x80 + n / 4096 % 64) = true by simp [isContByte]; omega)]
  rw [if_neg (by omega)]
  rw [assembleFrom_cont]
  rw [if_pos (show isContByte (0x80 + n / 64 % 64) = true by simp [isContByte]; omega)]
  rw [if_neg (by omega)]
  rw [hv1]
  rw [assembleFrom_cont]
  rw [if_pos (show isContByte (0x80 + n % 64) = true by simp [isContByte]; omega)]
  rw [if_pos rfl]
  rw [show n / 4096 * 64 + (0x80 + n / 64 % 64 - 0x80) = n / 64 from by omega]
  rw [if_pos (show _ ∧ _ ∧ _ from by refine ⟨by omega, by omega, by omega⟩)]
  rw [show n / 64 * 64 + (0x80 + n % 64 - 0x80) = n from by omega]

theorem assemble_raws (l : List Char) :
    assembleUtf8 (l.map UriTok.raw) = some l := by
  induction l with
  | nil => rfl
  | cons c l ih =>
    rw [List.map_cons, assemble_cons_raw, ih]
    rfl

theorem assemble_encChar (c : Char) (ts : List UriTok) :
    assembleUtf8 (encCharToks c ++ ts) = (assembleUtf8 ts).map (fun l => c :: l) := by
  by_cases h : isUnreservedURI c = true
  · rw [show encCharToks c = [.raw c] from by simp [encCharToks, h]]
    exact assemble_cons_raw c ts
  · rw [show encCharToks c = (utf8Bytes c.toNat).map .byte from by simp [encCharToks, h]]
    by_cases h1 : c.toNat < 0x80
    · rw [show utf8Bytes c.toNat = [c.toNat] from by simp [utf8Bytes, h1]]
      rw [show ([c.toNat].map UriTok.byte) ++ ts = .byte c.toNat :: ts from rfl]
      rw [assemble_cons_ascii c.toNat h1 ts, Char.ofNat_toNat]
    · by_cases h2 : c.toNat < 0x800
      · rw [show utf8Bytes c.toNat = [0xC0 + c.toNat / 64, 0x80 + c.toNat % 64] from by
          simp [utf8Bytes, h1, h2]]
        show assembleFrom 0 0 0 (.byte (0xC0 + c.toNat / 64) :: .byte (0x80 + c.toNat % 64)
          :: ts) = _
        rw [assemble_two c.toNat (by omega) h2 ts, Char.ofNat_toNat]
        rfl
      · by_cases h3 : c.toNat < 0x10000
        · rw [show utf8Bytes c.toNat
            = [0xE0 + c.toNat / 4096, 0x80 + c.toNat / 64 % 64, 0x80 + c.toNat % 64] from by
              simp [utf8Bytes, h1, h2, h3]]
          show assembleFrom 0 0 0 (.byte (0xE0 + c.toNat / 4096)
            :: .byte (0x80 + c.toNat / 64 % 64) :: .byte (0x80 + c.toNat % 64) :: ts) = _
          rw [assemble_three c.toNat (by omega) h3
            (by rcases char_valid c with hv | hv
                · omega
                · omega) ts,
            Char.ofNat_toNat]
          rfl
        · have hlt := char_toNat_lt c
          rw [show utf8Bytes c.toNat
            = [0xF0 + c.toNat / 262144, 0x80 + c.toNat / 4096 % 64,
                0x80 + c.toNat / 64 % 64, 0x80 + c.toNat % 64] from by
              simp [utf8Bytes, h1, h2, h3]]
          show assembleFrom 0 0 0 (.byte (0xF0 + c.toNat / 262144)
            :: .byte (0x80 + c.toNat / 4096 % 64) :: .byte (0x80 + c.toNat / 64 % 64)
            :: .byte (0x80 + c.toNat % 64) :: ts) = _
          rw [assemble_four c.toNat (by omega) hlt ts, Char.ofNat_toNat]
          rfl

theorem assemble_encFlat (l : List Char) :
    assembleUtf8 (l.flatMap encCharToks) = some l := by
  induction l with
  | nil => rfl
  | cons c l ih =>
    rw [List.flatMap_cons, assemble_encChar, ih]
    rfl

theorem mk_toList (s : String) : String.mk s.toList = s := rfl

/-- decodeURIComponent inverts encodeURIComponent on every string. -/
theorem decode_encode (s : String) :
    decodeURIComponent (encodeURIComponent s) = some s := by
  unfold decodeURIComponent encodeURIComponent
  rw [show (String.mk (s.toList.flatMap encChar)).toList = s.toList.flatMap encChar from rfl]
  rw [uriTokens_encFlat]
  simp [assemble_encFlat, mk_toList]

theorem uriTokens_no_pct (l : List Char) (h : ∀ c ∈ l, ¬c = '%') :
    uriTokens l = some (l.map UriTok.raw) := by
  induction l with
  | nil => rfl
  | cons c cs ih =>
    rw [uriTokens_raw c (h c (by simp)) cs, ih (fun x hx => h x (by simp [hx]))]
    rfl

/-- decodeURIComponent is the identity on percent-free strings. -/
theorem decode_no_pct (l : List Char) (h : ∀ c ∈ l, ¬c = '%') :
    decodeURIComponent (String.mk l) = some (String.mk l) := by
  unfold decodeURIComponent
  rw [show (String.mk l).toList = l from rfl, uriTokens_no_pct l h]
  simp [assemble_raws]

theorem plusToSpace_id (l : List Char) (h : ∀ c ∈ l, ¬c = '+') : plusToSpace l = l := by
  unfold plusToSpace
  induction l with
  | nil => rfl
  | cons c cs ih =>
    rw [List.map_cons, if_neg (h c (by simp)), ih (fun x hx => h x (by simp [hx]))]

theorem scan_val_app (K acc V rest : List Char) (hV : ∀ c ∈ V, ¬c = '&') :
    scanPairs (.val K acc) (V ++ '&' :: rest)
      = (K, acc.reverse ++ V) :: scanPairs .seek rest := by
  induction V generalizing acc with
  | nil =>
    show scanPairs (.val K acc) ('&' :: rest) = _
    simp [scanPairs]
  | cons v V ih =>
    have hv : ¬v = '&' := hV v (by simp)
    show scanPairs (.val K acc) (v :: (V ++ '&' :: rest)) = _
    rw [show scanPairs (.val K acc) (v :: (V ++ '&' :: rest))
      = scanPairs (.val K (v :: acc)) (V ++ '&' :: rest) from by simp [scanPairs, hv]]
    rw [ih (v :: acc) (fun x hx => hV x (by simp [hx]))]
    simp

theorem scan_val_end (K acc V : List Char) (hV : ∀ c ∈ V, ¬c = '&') :
    scanPairs (.val K acc) V = [(K, acc.reverse ++ V)] := by
  induction V generalizing acc with
  | nil => simp [scanPairs]
  | cons v V ih =>
    have hv : ¬v = '&' := hV v (by simp)
    rw [show scanPairs (.val K acc) (v :: V) = scanPairs (.val K (v :: acc)) V from by
      simp [scanPairs, hv]]
    rw [ih (v :: acc) (fun x hx => hV x (by simp [hx]))]
    simp

theorem scan_key_app (acc K rest : List Char) (hK : ∀ c ∈ K, isKeyChar c = true) :
    scanPairs (.key acc) (K ++ '=' :: rest) = scanPairs (.val (acc.reverse ++ K) []) rest := by
  induction K generalizing acc with
  | nil =>
    show scanPairs (.key acc) ('=' :: rest) = _
    rw [show scanPairs (.key acc) ('=' :: rest) = scanPairs (.val acc.reverse []) rest from by
      simp [scanPairs, show isKeyChar '=' = false from by decide]]
    simp
  | cons k K ih =>
    have hk := hK k (by simp)
    rw [List.cons_append]
    rw [show scanPairs (.key acc) (k :: (K ++ '=' :: rest))
      = scanPairs (.key (k :: acc)) (K ++ '=' :: rest) from by simp [scanPairs, hk]]
    rw [ih (k :: acc) (fun x hx => hK x (by simp [hx]))]
    simp

theorem scan_seek_pair (k : Char) (K V rest : List Char) (hk : isKeyChar k = true)
    (hK : ∀ c ∈ K, isKeyChar c = true) (hV : ∀ c ∈ V, ¬c = '&') :
    scanPairs .seek ((k :: K) ++ ('=' :: (V ++ ('&' :: rest))))
      = (k :: K, V) :: scanPairs .seek rest := by
  rw [List.cons_append]
  rw [show scanPairs .seek (k :: (K ++ ('=' :: (V ++ ('&' :: rest)))))
    = scanPairs (.key [k]) (K ++ ('=' :: (V ++ ('&' :: rest)))) from by simp [scanPairs, hk]]
  rw [scan_key_app [k] K _ hK]
  rw [show ([k].reverse ++ K) = k :: K from by simp]
  rw [scan_val_app (k :: K) [] V rest hV]
  simp

theorem scan_seek_pair_end (k : Char) (K V : List Char) (hk : isKeyChar k = true)
    (hK : ∀ c ∈ K, isKeyChar c = true) (hV : ∀ c ∈ V, ¬c = '&') :
    scanPairs .seek ((k :: K) ++ ('=' :: V)) = [(k :: K, V)] := by
  rw [List.cons_append]
  rw [show scanPairs .seek (k :: (K ++ ('=' :: V)))
    = scanPairs (.key [k]) (K ++ ('=' :: V)) from by simp [scanPairs, hk]]
  rw [scan_key_app [k] K _ hK]
  rw [show ([k].reverse ++ K) = k :: K from by simp]
  rw [scan_val_end (k :: K) [] V hV]
  simp

theorem afterFirstQ_app (xs ys : List Char) (hx : ∀ c ∈ xs, ¬c = '?') :
    afterFirstQ (xs ++ '?' :: ys) = some (ys.takeWhile (fun x => x != '?')) := by
  induction xs with
  | nil => simp [afterFirstQ]
  | cons x xs ih =>
    have hxx := hx x (by simp)
    simp only [List.cons_append, afterFirstQ, if_neg hxx]
    exact ih (fun c hc => hx c (by simp [hc]))

theorem afterFirstQ_none (l : List Char) (h : ∀ c ∈ l, ¬c = '?') :
    afterFirstQ l = none := by
  induction l with
  | nil => rfl
  | cons x xs ih =>
    simp only [afterFirstQ, if_neg (h x (by simp))]
    exact ih (fun c hc => h c (by simp [hc]))

theorem takeWhile_noq (ys : List Char) (hy : ∀ c ∈ ys, ¬c = '?') :
    ys.takeWhile (fun x => x != '?') = ys := by
  induction ys with
  | nil => rfl
  | cons y ys ih =>
    rw [List.takeWhile_cons_of_pos (by simp [hy y (by simp)]),
      ih (fun c hc => hy c (by simp [hc]))]

theorem extractQuery_app (xs ys : List Char) (hx : ∀ c ∈ xs, ¬c = '?')
    (hy : ∀ c ∈ ys, ¬c = '?') : extractQuery (xs ++ '?' :: ys) = ys := by
  unfold extractQuery
  rw [afterFirstQ_app xs ys hx, takeWhile_noq ys hy]

theorem extractQuery_noq (l : List Char) (h : ∀ c ∈ l, ¬c = '?') : extractQuery l = l := by
  unfold extractQuery
  rw [afterFirstQ_none l h]

theorem hexDigitChar_classes (n : Nat) (h : n < 16) :
    ¬hexDigitChar n = '&' ∧ ¬hexDigitChar n = '+' ∧ ¬hexDigitChar n = '?' := by
  interval_cases n <;> exact ⟨by decide, by decide, by decide⟩

theorem unreserved_classes (c : Char) (h : isUnreservedURI c = true) :
    ¬c = '&' ∧ ¬c = '+' ∧ ¬c = '?' := by
  refine ⟨?_, ?_, ?_⟩ <;> rintro rfl <;> exact absurd h (by decide)

theorem encChar_classes (c : Char) :
    ∀ x ∈ encChar c, ¬x = '&' ∧ ¬x = '+' ∧ ¬x = '?' := by
  intro x hx
  unfold encChar at hx
  by_cases h : isUnreservedURI c = true
  · rw [if_pos h] at hx
    rw [List.mem_singleton] at hx
    rw [hx]
    exact unreserved_classes c h
  · rw [if_neg h] at hx
    simp only [List.mem_flatMap] at hx
    obtain ⟨b, hb, hx⟩ := hx
    have hb256 := utf8Bytes_lt_256 c.toNat (char_toNat_lt c) b hb
    simp [byteEsc] at hx
    rcases hx with rfl | rfl | rfl
    · exact ⟨by decide, by decide, by decide⟩
    · exact hexDigitChar_classes _ (by omega)
    · exact hexDigitChar_classes _ (by omega)

theorem encList_classes (s : String) :
    ∀ x ∈ (encodeURIComponent s).toList, ¬x = '&' ∧ ¬x = '+' ∧ ¬x = '?' := by
  intro x hx
  rw [show (encodeURIComponent s).toList = s.toList.flatMap encChar from rfl] at hx
  simp only [List.mem_flatMap] at hx
  obtain ⟨c, _, hx⟩ := hx
  exact encChar_classes c x hx

theorem decodeValue_enc (c : String) :
    decodeValue (encodeURIComponent c).toList = some c := by
  unfold decodeValue
  rw [plusToSpace_id _ (fun x hx => (encList_classes c x hx).2.1)]
  rw [mk_toList]
  exact decode_encode c

theorem decodeValue_plain (v : String) (h : ∀ ch ∈ v.toList, ¬ch = '%' ∧ ¬ch = '+') :
    decodeValue v.toList = some v := by
  unfold decodeValue
  rw [plusToSpace_id _ (fun x hx => (h x hx).2)]
  have hd := decode_no_pct v.toList (fun x hx => (h x hx).1)
  rwa [mk_toList] at hd

theorem toList_append (a b : String) : (a ++ b).toList = a.toList ++ b.toList := rfl

/-- C4 (amended).  buildAuthUrl produces exactly the backend followed by the
two query parameters backto (percent-encoded callback) and auth, and the
codec round-trips: provided the backend contains no question mark and the
provider name none of question mark, ampersand, percent or plus (characters
that would make the query split or the regex or the decoding cut the url
elsewhere), parsing the built url with the success parameters appended yields
exactly the mapping backto, auth, action, id, email — for every callback
string, which is restored by percent-decoding. -/
theorem buildAuthUrl_roundtrip_amended (b p c : String)
    (hb : ∀ ch ∈ b.toList, ¬ch = '?')
    (hp : ∀ ch ∈ p.toList, ¬ch = '?' ∧ ¬ch = '&' ∧ ¬ch = '%' ∧ ¬ch = '+') :
    buildAuthUrl b p c = b ++ "?backto=" ++ encodeURIComponent c ++ "&auth=" ++ p
    ∧ parseCallbackUrl (buildAuthUrl b p c ++ "&action=success&id=1&email=e@x.com")
      = [("backto", c), ("auth", p), ("action", "success"), ("id", "1"),
          ("email", "e@x.com")] := by
  refine ⟨rfl, ?_⟩
  have hurl : (buildAuthUrl b p c ++ "&action=success&id=1&email=e@x.com").toList
      = b.toList ++ '?' :: ("backto=".toList ++ ((encodeURIComponent c).toList
          ++ ("&auth=".toList
          ++ (p.toList ++ "&action=success&id=1&email=e@x.com".toList)))) := by
    show ((b ++ "?backto=" ++ encodeURIComponent c ++ "&auth=" ++ p)
        ++ "&action=success&id=1&email=e@x.com").toList = _
    rw [toList_append, toList_append, toList_append, toList_append, toList_append]
    rw [show "?backto=".toList = '?' :: "backto=".toList from rfl]
    simp [List.append_assoc]
  have hq : extractQuery (buildAuthUrl b p c
      ++ "&action=success&id=1&email=e@x.com").toList
      = "backto=".toList ++ ((encodeURIComponent c).toList ++ ("&auth=".toList
          ++ (p.toList ++ "&action=success&id=1&email=e@x.com".toList))) := by
    rw [hurl]
    refine extractQuery_app _ _ hb ?_
    intro ch hch
    simp only [List.mem_append] at hch
    rcases hch with hch | hch | hch | hch | hch
    · revert ch
      decide
    · exact (encList_classes c ch hch).2.2
    · revert ch
      decide
    · exact (hp ch hch).1
    · revert ch
      decide
  have hshape : "backto=".toList ++ ((encodeURIComponent c).toList ++ ("&auth=".toList
        ++ (p.toList ++ "&action=success&id=1&email=e@x.com".toList)))
      = ('b' :: "ackto".toList) ++ ('=' :: ((encodeURIComponent c).toList
          ++ ('&' :: (('a' :: "uth".toList) ++ ('=' :: (p.toList
          ++ ('&' :: "action=success&id=1&email=e@x.com".toList))))))) := by
    rw [show "backto=".toList = ('b' :: "ackto".toList) ++ ['='] from rfl]
    rw [show "&auth=".toList = '&' :: (('a' :: "uth".toList) ++ ['=']) from rfl]
    rw [show "&action=success&id=1&email=e@x.com".toList
      = '&' :: "action=success&id=1&email=e@x.com".toList from rfl]
    simp [List.append_assoc]
  have hscan : scanPairs .seek ("backto=".toList ++ ((encodeURIComponent c).toList
        ++ ("&auth=".toList ++ (p.toList ++ "&action=success&id=1&email=e@x.com".toList))))
      = ("backto".toList, (encodeURIComponent c).toList)
        :: ("auth".toList, p.toList)
        :: [("action".toList, "success".toList), ("id".toList, "1".toList),
            ("email".toList, "e@x.com".toList)] := by
    rw [hshape]
    rw [scan_seek_pair 'b' "ackto".toList _ _ (by decide) (by decide)
      (fun x hx => (encList_classes c x hx).1)]
    rw [scan_seek_pair 'a' "uth".toList _ _ (by decide) (by decide)
      (fun x hx => (hp x hx).2.1)]
    rw [show scanPairs .seek "action=success&id=1&email=e@x.com".toList
      = [("action".toList, "success".toList), ("id".toList, "1".toList),
          ("email".toList, "e@x.com".toList)] from by decide]
    rfl
  unfold parseCallbackUrl rawPairs
  rw [hq, hscan]
  rw [show buildParams (("backto".toList, (encodeURIComponent c).toList)
      :: ("auth".toList, p.toList)
      :: [("action".toList, "success".toList), ("id".toList, "1".toList),
          ("email".toList, "e@x.com".toList)]) []
    = buildParams (("auth".toList, p.toList)
      :: [("action".toList, "success".toList), ("id".toList, "1".toList),
          ("email".toList, "e@x.com".toList)]) [("backto", c)] from by
    simp only [buildParams, decodeValue_enc c]
    rw [show String.mk "backto".toList = "backto" from rfl]
    simp [setKV]]
  rw [show buildParams (("auth".toList, p.toList)
      :: [("action".toList, "success".toList), ("id".toList, "1".toList),
          ("email".toList, "e@x.com".toList)]) [("backto", c)]
    = buildParams [("action".toList, "success".toList), ("id".toList, "1".toList),
          ("email".toList, "e@x.com".toList)] [("backto", c), ("auth", p)] from by
    simp only [buildParams, decodeValue_plain p (fun x hx => ⟨(hp x hx).2.2.1, (hp x hx).2.2.2⟩)]
    rw [show String.mk "auth".toList = "auth" from rfl]
    simp [setKV, show (("backto" : String) == "auth") = false from by decide]]
  simp only [buildParams,
    show decodeValue "success".toList = some "success" from by decide,
    show decodeValue "1".toList = some "1" from by decide,
    show decodeValue "e@x.com".toList = some "e@x.com" from by decide]
  rw [show String.mk "action".toList = "action" from rfl]
  rw [show String.mk "id".toList = "id" from rfl]
  rw [show String.mk "email".toList = "email" from rfl]
  simp [setKV, show (("backto" : String) == "action") = false from by decide,
    show (("auth" : String) == "action") = false from by decide,
    show (("backto" : String) == "id") = false from by decide,
    show (("auth" : String) == "id") = false from by decide,
    show (("action" : String) == "id") = false from by decide,
    show (("backto" : String) == "email") = false from by decide,
    show (("auth" : String) == "email") = false from by decide,
    show (("action" : String) == "email") = false from by decide,
    show (("id" : String) == "email") = false from by decide]

/-- C4 witness: the amended round-trip at concrete backend, provider and a
callback containing characters that need percent-encoding. -/
theorem buildAuthUrl_roundtrip_amended_witness :
    buildAuthUrl "https://be.app" "google" "https://me.app/cb one+two"
        = "https://be.app" ++ "?backto=" ++ encodeURIComponent "https://me.app/cb one+two"
          ++ "&auth=" ++ "google"
      ∧ parseCallbackUrl (buildAuthUrl "https://be.app" "google" "https://me.app/cb one+two"
          ++ "&action=success&id=1&email=e@x.com")
        = [("backto", "https://me.app/cb one+two"), ("auth", "google"),
            ("action", "success"), ("id", "1"), ("email", "e@x.com")] :=
  buildAuthUrl_roundtrip_amended "https://be.app" "google" "https://me.app/cb one+two"
    (by decide) (by decide)

/-- C4 counterexample: with a backend url containing a question mark the
parsed mapping loses every pair (the split takes the segment between the
first two question marks), so the round-trip claimed for every backend string
fails: backto is absent rather than bound to the callback. -/
theorem buildAuthUrl_roundtrip_counterexample :
    getParam (parseCallbackUrl (buildAuthUrl "a?b" "google" "cb"
        ++ "&action=success&id=1&email=e@x.com")) "backto" = none
      ∧ parseCallbackUrl (buildAuthUrl "a?b" "google" "cb"
        ++ "&action=success&id=1&email=e@x.com") = [] := by
  decide

theorem isKeyChar_classes (ch : Char) (h : isKeyChar ch = true) :
    ¬ch = '?' ∧ ¬ch = '&' ∧ ¬ch = '=' := by
  refine ⟨?_, ?_, ?_⟩ <;> rintro rfl <;> exact absurd h (by decide)

/-- C5 (amended).  parseCallbackUrl never raises (it is a total function) and
returns the pairs that parsed cleanly BEFORE the first malformed pair: the
try/catch wraps the whole parse loop, so a malformed percent-encoding in one
pair aborts parsing of the remaining pairs, which do not appear in the
returned mapping (empty mapping on total failure).  Here: any one clean pair
followed by the malformed pair x=%zz followed by anything yields exactly the
clean pair. -/
theorem parseCallbackUrl_abort_amended (k v rest : String)
    (hk0 : k.toList ≠ [])
    (hk : ∀ ch ∈ k.toList, isKeyChar ch = true)
    (hv : ∀ ch ∈ v.toList, ¬ch = '&' ∧ ¬ch = '%' ∧ ¬ch = '+' ∧ ¬ch = '?')
    (hrest : ∀ ch ∈ rest.toList, ¬ch = '?') :
    parseCallbackUrl (k ++ "=" ++ v ++ "&x=%zz&" ++ rest) = [(k, v)] := by
  have hurl : (k ++ "=" ++ v ++ "&x=%zz&" ++ rest).toList
      = k.toList ++ ('=' :: (v.toList ++ ('&' :: ('x' :: ('=' :: ('%' :: ('z' :: ('z'
          :: ('&' :: rest.toList))))))))) := by
    show (((k ++ "=") ++ v) ++ "&x=%zz&" ++ rest).toList = _
    rw [toList_append, toList_append, toList_append, toList_append]
    rw [show "=".toList = ['='] from rfl]
    rw [show "&x=%zz&".toList = ['&', 'x', '=', '%', 'z', 'z', '&'] from rfl]
    simp [List.append_assoc]
  unfold parseCallbackUrl rawPairs
  rw [hurl]
  rw [extractQuery_noq _ ?hnoq]
  case hnoq =>
    intro ch hch
    simp only [List.mem_append, List.mem_cons] at hch
    rcases hch with hch | hch | hch
    · exact (isKeyChar_classes ch (hk ch hch)).1
    · cases hch
      decide
    · rcases hch with hch | hch
      · exact (hv ch hch).2.2.2
      · rcases hch with hch | hch
        · cases hch
          decide
        · rcases hch with hch | hch
          · cases hch
            decide
          · rcases hch with hch | hch
            · cases hch
              decide
            · rcases hch with hch | hch
              · cases hch
                decide
              · rcases hch with hch | hch
                · cases hch
                  decide
                · rcases hch with hch | hch
                  · cases hch
                    decide
                  · rcases hch with hch | hch
                    · cases hch
                      decide
                    · exact hrest ch hch
  obtain ⟨kc, K, hkk⟩ : ∃ kc K, k.toList = kc :: K := by
    cases hkl : k.toList with
    | nil => exact absurd hkl hk0
    | cons a l => exact ⟨a, l, rfl⟩
  rw [hkk]
  rw [scan_seek_pair kc K v.toList _ (hk kc (by rw [hkk]; simp))
    (fun x hx => hk x (by rw [hkk]; simp [hx])) (fun x hx => (hv x hx).1)]
  rw [show ('x' :: ('=' :: ('%' :: ('z' :: ('z' :: ('&' :: rest.toList))))))
    = ('x' :: []) ++ ('=' :: (['%', 'z', 'z'] ++ ('&' :: rest.toList))) from by simp]
  rw [scan_seek_pair 'x' [] ['%', 'z', 'z'] rest.toList (by decide) (by decide) (by decide)]
  simp only [buildParams, decodeValue_plain v (fun x hx => ⟨(hv x hx).2.1, (hv x hx).2.2.1⟩),
    show decodeValue ['%', 'z', 'z'] = none from by decide]
  rw [← hkk, mk_toList]
  simp [setKV]

/-- C5 witness: the amended theorem at a concrete clean pair, then the
malformed pair, then a trailing clean pair that is dropped. -/
theorem parseCallbackUrl_abort_amended_witness :
    parseCallbackUrl ("a" ++ "=" ++ "1" ++ "&x=%zz&" ++ "c=3") = [("a", "1")] :=
  parseCallbackUrl_abort_amended "a" "1" "c=3" (by decide) (by decide) (by decide) (by decide)

/-- C5 counterexample: a malformed percent-encoding in the middle pair makes
the code drop the following well-formed pair c equals 3, which the claim says
must still appear in the returned mapping. -/
theorem parseCallbackUrl_abort_counterexample :
    parseCallbackUrl "a=1&b=%zz&c=3" = [("a", "1")]
      ∧ getParam (parseCallbackUrl "a=1&b=%zz&c=3") "c" = none := by
  decide

theorem facebookPopup_step_timeout_inv (s : PopupState) (e : PopupEvent)
    (h : s.timeoutActive = false → s.settled.isSome = true) :
    (facebookPopupStep s e).timeoutActive = false
      → (facebookPopupStep s e).settled.isSome = true := by
  intro hf
  cases hs : s.settled with
  | some r => simp [facebookPopup_step_settled s e r hs]
  | none =>
    have ht : s.timeoutActive = true := by
      by_contra hc
      have := h (Bool.eq_false_iff.mpr hc)
      simp [hs] at this
    cases e with
    | userClose => simp [facebookPopupStep, hs] at hf ⊢; simp [hf] at ht
    | message so oc ps => simp [facebookPopupStep, hs] at hf ⊢; simp [hf] at ht
    | timeoutFire => simp [facebookPopupStep, ht, resolveP, hs]
    | pollTick urlRead =>
      cases hp : s.pollActive
      · simp [facebookPopupStep, hp] at hf; simp [hf] at ht
      · cases ho : s.popupOpen
        · simp [facebookPopupStep, hp, ho, resolveP, hs]
        · cases urlRead with
          | none => simp [facebookPopupStep, hp, ho] at hf; simp [hf] at ht
          | some url =>
            by_cases hm : (jsIncludes url "action=success"
                || jsIncludes url "action=failed") = true
            · simp [facebookPopupStep, hp, ho, hm, resolveP, hs]
            · simp only [Bool.not_eq_true] at hm
              simp [facebookPopupStep, hp, ho, hm] at hf
              simp [hf] at ht

/-- The facebook popup promise always settles once the timeout has fired: the
default value in facebookPopupResult is unreachable. -/
theorem facebookPopupFinal_settles (blocked : Bool) (events : List PopupEvent) :
    (facebookPopupFinal blocked events).settled.isSome = true := by
  have hinv : ∀ (evs : List PopupEvent) (s : PopupState),
      (s.timeoutActive = false → s.settled.isSome = true) →
      ((evs.foldl facebookPopupStep s).timeoutActive = false
        → (evs.foldl facebookPopupStep s).settled.isSome = true) := by
    intro evs
    induction evs with
    | nil => intro s h; simpa using h
    | cons e evs ih =>
      intro s h
      simpa using ih (facebookPopupStep s e) (facebookPopup_step_timeout_inv s e h)
  have hinit : (facebookPopupInit blocked).timeoutActive = false
      → (facebookPopupInit blocked).settled.isSome = true := by
    cases blocked <;> simp [facebookPopupInit]
  have hlast := hinv (events ++ [PopupEvent.timeoutFire]) (facebookPopupInit blocked) hinit
  set f := (events ++ [PopupEvent.timeoutFire]).foldl facebookPopupStep
    (facebookPopupInit blocked) with hf
  show f.settled.isSome = true
  have hsplit : f = facebookPopupStep (events.foldl facebookPopupStep
      (facebookPopupInit blocked)) .timeoutFire := by
    rw [hf, List.foldl_append]
    rfl
  set m := events.foldl facebookPopupStep (facebookPopupInit blocked) with hm
  cases hs : m.settled with
  | some r =>
    rw [hsplit]
    simp [facebookPopup_step_settled m .timeoutFire r hs]
  | none =>
    cases ht : m.timeoutActive with
    | false =>
      have := hinv events (facebookPopupInit blocked) hinit ht
      simp [← hm, hs] at this
    | true =>
      rw [hsplit]
      simp [facebookPopupStep, ht, resolveP, hs]

theorem listenerPopup_step_settled (s : PopupState) (e : PopupEvent) (r : AuthResult)
    (hr : s.settled = some r) : (listenerPopupStep s e).settled = some r := by
  cases e with
  | userClose => simpa [listenerPopupStep] using hr
  | message so oc ps =>
    cases hl : s.listenerActive
    · simpa [listenerPopupStep, hl] using hr
    · cases hso : so
      · simpa [listenerPopupStep, hl, hso] using hr
      · cases hoc : oc
        · simpa [listenerPopupStep, hl, hso, hoc] using hr
        · simp [listenerPopupStep, hl, hso, hoc, resolveP, hr]
  | timeoutFire =>
    cases ht : s.timeoutActive <;> simp [listenerPopupStep, ht, resolveP, hr]
  | pollTick urlRead =>
    cases hp : s.pollActive
    · simpa [listenerPopupStep, hp] using hr
    · cases ho : s.popupOpen
      · simp [listenerPopupStep, hp, ho, resolveP, hr]
      · cases urlRead with
        | none => simpa [listenerPopupStep, hp, ho] using hr
        | some url =>
          by_cases hm : (jsIncludes url "action=success" || jsIncludes url "action=failed") = true
          · simp [listenerPopupStep, hp, ho, hm, resolveP, hr]
          · simp only [Bool.not_eq_true] at hm
            simpa [listenerPopupStep, hp, ho, hm] using hr

theorem listenerPopup_step_timeout_inv (s : PopupState) (e : PopupEvent)
    (h : s.timeoutActive = false → s.settled.isSome = true) :
    (listenerPopupStep s e).timeoutActive = false
      → (listenerPopupStep s e).settled.isSome = true := by
  intro hf
  cases hs : s.settled with
  | some r => simp [listenerPopup_step_settled s e r hs]
  | none =>
    have ht : s.timeoutActive = true := by
      by_contra hc
      have := h (Bool.eq_false_iff.mpr hc)
      simp [hs] at this
    cases e with
    | userClose => simp [listenerPopupStep, hs] at hf ⊢; simp [hf] at ht
    | message so oc ps =>
      cases hl : s.listenerActive
      · simp [listenerPopupStep, hl] at hf; simp [hf] at ht
      · cases hso : so
        · simp [listenerPopupStep, hl, hso] at hf; simp [hf] at ht
        · cases hoc : oc
          · simp [listenerPopupStep, hl, hso, hoc] at hf; simp [hf] at ht
          · simp [listenerPopupStep, hl, hso, hoc, resolveP, hs]
    | timeoutFire => simp [listenerPopupStep, ht, resolveP, hs]
    | pollTick urlRead =>
      cases hp : s.pollActive
      · simp [listenerPopupStep, hp] at hf; simp [hf] at ht
      · cases ho : s.popupOpen
        · simp [listenerPopupStep, hp, ho, resolveP, hs]
        · cases urlRead with
          | none => simp [listenerPopupStep, hp, ho] at hf; simp [hf] at ht
          | some url =>
            by_cases hm : (jsIncludes url "action=success"
                || jsIncludes url "action=failed") = true
            · simp [listenerPopupStep, hp, ho, hm, resolveP, hs]
            · simp only [Bool.not_eq_true] at hm
              simp [listenerPopupStep, hp, ho, hm] at hf
              simp [hf] at ht

/-- The google and apple popup promises always settle once the timeout has
fired: the default value in listenerPopupResult is unreachable. -/
theorem listenerPopupFinal_settles (blocked : Bool) (events : List PopupEvent) :
    (listenerPopupFinal blocked events).settled.isSome = true := by
  have hinv : ∀ (evs : List PopupEvent) (s : PopupState),
      (s.timeoutActive = false → s.settled.isSome = true) →
      ((evs.foldl listenerPopupStep s).timeoutActive = false
        → (evs.foldl listenerPopupStep s).settled.isSome = true) := by
    intro evs
    induction evs with
    | nil => intro s h; simpa using h
    | cons e evs ih =>
      intro s h
      simpa using ih (listenerPopupStep s e) (listenerPopup_step_timeout_inv s e h)
  have hinit : (listenerPopupInit blocked).timeoutActive = false
      → (listenerPopupInit blocked).settled.isSome = true := by
    cases blocked <;> simp [listenerPopupInit]
  have hsplit : listenerPopupFinal blocked events
      = listenerPopupStep (events.foldl listenerPopupStep (listenerPopupInit blocked))
          .timeoutFire := by
    unfold listenerPopupFinal
    rw [List.foldl_append]
    rfl
  set m := events.foldl listenerPopupStep (listenerPopupInit blocked) with hm
  cases hs : m.settled with
  | some r =>
    rw [hsplit]
    simp [listenerPopup_step_settled m .timeoutFire r hs]
  | none =>
    cases ht : m.timeoutActive with
    | false =>
      have := hinv events (listenerPopupInit blocked) hinit ht
      simp [← hm, hs] at this
    | true =>
      rw [hsplit]
      simp [listenerPopupStep, ht, resolveP, hs]

end SocialAuth
